import Mathlib

/-!
Verification of the plan→execute→verify→replan core of the `genai-ops-assistant`
repository (`src/ai_ops_assistant`).  The Python code is shallowly embedded:

* JSON-like Python values (the dicts produced by tools and by the LLM oracle)
  become the inductive type `Val`; Python dict get/set become `dget`/`dset`
  on association lists (the repository never builds dicts with duplicate keys).
* The external collaborators (the tool callables of `tools/registry.py` and the
  LLM oracle `LLMClient.chat_json`) are parameters: a registry maps a tool name
  to a function `Val → Except String Val` (`Except.error` models a raised
  exception whose message is `str(exc)`), and the verifier/planner oracles are
  function parameters.  A separate `Env` per pipeline pass models the fact that
  the external world (network tools) may answer differently at different times.
* Wall-clock step timing (`time.perf_counter`) is modelled by an arbitrary
  duration function `Env.dms : Nat → Nat` giving the measured milliseconds of
  the call at a given position.
* The nondeterministic completion order of the `ThreadPoolExecutor` in
  `ExecutorAgent.execute` is modelled by an explicit completion order
  `order : List Nat` (the order in which `as_completed` yields the futures);
  results are written into an index-addressed slot list exactly as the Python
  writes `results[idx]`.
-/

/-- A Python/JSON value as it flows through the pipeline: `None`, booleans,
integers, strings, lists and string-keyed dicts. -/
inductive Val where
  | vnull : Val
  | vbool (b : Bool) : Val
  | vint (n : Int) : Val
  | vstr (s : String) : Val
  | vlist (xs : List Val) : Val
  | vdict (kvs : List (String × Val)) : Val

mutual

/-- Structural equality test on `Val` (Python `==` on JSON values). -/
def Val.beq : Val → Val → Bool
  | .vnull, .vnull => true
  | .vbool a, .vbool b => a == b
  | .vint a, .vint b => a == b
  | .vstr a, .vstr b => a == b
  | .vlist xs, .vlist ys => Val.beqList xs ys
  | .vdict xs, .vdict ys => Val.beqDict xs ys
  | _, _ => false

/-- Pointwise equality test on lists of values. -/
def Val.beqList : List Val → List Val → Bool
  | [], [] => true
  | x :: xs, y :: ys => Val.beq x y && Val.beqList xs ys
  | _, _ => false

/-- Pointwise equality test on association lists. -/
def Val.beqDict : List (String × Val) → List (String × Val) → Bool
  | [], [] => true
  | (k, v) :: xs, (l, w) :: ys => k == l && Val.beq v w && Val.beqDict xs ys
  | _, _ => false

end

mutual

theorem Val.beq_iff : ∀ a b : Val, Val.beq a b = true ↔ a = b
  | .vnull, .vnull => by simp [Val.beq]
  | .vbool a, .vbool b => by simp [Val.beq]
  | .vint a, .vint b => by simp [Val.beq]
  | .vstr a, .vstr b => by simp [Val.beq]
  | .vlist xs, .vlist ys => by simp [Val.beq, Val.beqList_iff xs ys]
  | .vdict xs, .vdict ys => by simp [Val.beq, Val.beqDict_iff xs ys]
  | .vnull, .vbool _ => by simp [Val.beq]
  | .vnull, .vint _ => by simp [Val.beq]
  | .vnull, .vstr _ => by simp [Val.beq]
  | .vnull, .vlist _ => by simp [Val.beq]
  | .vnull, .vdict _ => by simp [Val.beq]
  | .vbool _, .vnull => by simp [Val.beq]
  | .vbool _, .vint _ => by simp [Val.beq]
  | .vbool _, .vstr _ => by simp [Val.beq]
  | .vbool _, .vlist _ => by simp [Val.beq]
  | .vbool _, .vdict _ => by simp [Val.beq]
  | .vint _, .vnull => by simp [Val.beq]
  | .vint _, .vbool _ => by simp [Val.beq]
  | .vint _, .vstr _ => by simp [Val.beq]
  | .vint _, .vlist _ => by simp [Val.beq]
  | .vint _, .vdict _ => by simp [Val.beq]
  | .vstr _, .vnull => by simp [Val.beq]
  | .vstr _, .vbool _ => by simp [Val.beq]
  | .vstr _, .vint _ => by simp [Val.beq]
  | .vstr _, .vlist _ => by simp [Val.beq]
  | .vstr _, .vdict _ => by simp [Val.beq]
  | .vlist _, .vnull => by simp [Val.beq]
  | .vlist _, .vbool _ => by simp [Val.beq]
  | .vlist _, .vint _ => by simp [Val.beq]
  | .vlist _, .vstr _ => by simp [Val.beq]
  | .vlist _, .vdict _ => by simp [Val.beq]
  | .vdict _, .vnull => by simp [Val.beq]
  | .vdict _, .vbool _ => by simp [Val.beq]
  | .vdict _, .vint _ => by simp [Val.beq]
  | .vdict _, .vstr _ => by simp [Val.beq]
  | .vdict _, .vlist _ => by simp [Val.beq]

theorem Val.beqList_iff : ∀ xs ys : List Val, Val.beqList xs ys = true ↔ xs = ys
  | [], [] => by simp [Val.beqList]
  | x :: xs, y :: ys => by
      simp [Val.beqList, Val.beq_iff x y, Val.beqList_iff xs ys]
  | [], _ :: _ => by simp [Val.beqList]
  | _ :: _, [] => by simp [Val.beqList]

theorem Val.beqDict_iff :
    ∀ xs ys : List (String × Val), Val.beqDict xs ys = true ↔ xs = ys
  | [], [] => by simp [Val.beqDict]
  | (k, v) :: xs, (l, w) :: ys => by
      simp [Val.beqDict, Val.beq_iff v w, Val.beqDict_iff xs ys, and_assoc]
  | [], _ :: _ => by simp [Val.beqDict]
  | _ :: _, [] => by simp [Val.beqDict]

end

instance : DecidableEq Val := fun a b => decidable_of_iff _ (Val.beq_iff a b)

/-- Python truthiness of a value (`bool(x)`): `None`, `False`, `0`, `""`,
`[]` and `{}` are falsy, everything else is truthy. -/
def Val.truthy : Val → Bool
  | .vnull => false
  | .vbool b => b
  | .vint n => n != 0
  | .vstr s => s != ""
  | .vlist xs => !xs.isEmpty
  | .vdict kvs => !kvs.isEmpty

mutual

/-- Python `str(x)` on a value (string escaping inside nested `repr` is not
modelled; the repository only ever formats scalar fields). -/
def Val.pyStr : Val → String
  | .vnull => "None"
  | .vbool true => "True"
  | .vbool false => "False"
  | .vint n => toString n
  | .vstr s => s
  | .vlist xs => "[" ++ String.intercalate ", " (Val.pyReprList xs) ++ "]"
  | .vdict kvs => "\x7b" ++ String.intercalate ", " (Val.pyReprDict kvs) ++ "\x7d"

/-- Python `repr(x)` on a value, as used by `str` on containers. -/
def Val.pyRepr : Val → String
  | .vnull => "None"
  | .vbool true => "True"
  | .vbool false => "False"
  | .vint n => toString n
  | .vstr s => "\x27" ++ s ++ "\x27"
  | .vlist xs => "[" ++ String.intercalate ", " (Val.pyReprList xs) ++ "]"
  | .vdict kvs => "\x7b" ++ String.intercalate ", " (Val.pyReprDict kvs) ++ "\x7d"

/-- Map `repr` over the elements of a list. -/
def Val.pyReprList : List Val → List String
  | [] => []
  | v :: rest => Val.pyRepr v :: Val.pyReprList rest

/-- Map `repr` over the entries of a dict. -/
def Val.pyReprDict : List (String × Val) → List String
  | [] => []
  | (k, v) :: rest => ("\x27" ++ k ++ "\x27: " ++ Val.pyRepr v) :: Val.pyReprDict rest

end

/-- Python `d.get(k)`: `some v` when the key is present, `none` when absent. -/
def dget : List (String × Val) → String → Option Val
  | [], _ => none
  | (k2, v) :: rest, k => if k2 = k then some v else dget rest k

/-- Replace the value stored at key `k` wherever it occurs, keeping positions
(the in-place branch of Python `d[k] = v`). -/
def dupdate : List (String × Val) → String → Val → List (String × Val)
  | [], _, _ => []
  | (k2, w) :: rest, k, v =>
      if k2 = k then (k, v) :: dupdate rest k v else (k2, w) :: dupdate rest k v

/-- Python `d[k] = v`: replace the value at an existing key in place (keeping
its position), or append a fresh key at the end. -/
def dset (kvs : List (String × Val)) (k : String) (v : Val) : List (String × Val) :=
  if (dget kvs k).isSome then dupdate kvs k v else kvs ++ [(k, v)]

/-- First-seen-order deduplication (Python `list(dict.fromkeys(xs))`),
carrying the set of already-seen elements. -/
def dedupFirstAux {α : Type} [DecidableEq α] (seen : List α) : List α → List α
  | [] => []
  | x :: xs =>
      if x ∈ seen then dedupFirstAux seen xs
      else x :: dedupFirstAux (x :: seen) xs

/-- Python `list(dict.fromkeys(xs))`: drop every occurrence of an element
after its first one, keeping first occurrences in order. -/
def dedupFirst {α : Type} [DecidableEq α] (l : List α) : List α :=
  dedupFirstAux [] l

/-!
## Data model (`§3` of the design): Step, Plan, StepResult

A normalized step (output of `PlannerAgent._normalize_plan`) always has a
`tool` that is a registry key name (a string); its `id`, `args` and `purpose`
are whatever JSON values the oracle supplied (or the normalization defaults).
-/

/-- One planned tool invocation (a normalized step dict). -/
structure Step where
  id : Val
  tool : String
  args : Val
  purpose : Val
deriving DecidableEq

instance : Inhabited Step := ⟨⟨Val.vnull, "", Val.vnull, Val.vnull⟩⟩

/-- A normalized plan (`{"goal": ..., "steps": [...]}`). -/
structure Plan where
  goal : Val
  steps : List Step
deriving DecidableEq

/-- The outcome dict of executing one step (`ExecutorAgent._run_step`).
`output`/`error` are `none` when the corresponding key is absent from the
produced dict. -/
structure StepResult where
  step_id : Val
  tool : String
  args : Val
  status : String
  output : Option Val
  error : Option String
  duration_ms : Nat
deriving DecidableEq

instance : Inhabited StepResult := ⟨⟨Val.vnull, "", Val.vnull, "", none, none, 0⟩⟩

/-- The tool registry as visible at one moment: a name→callable mapping.
A callable returns the tool's output dict, or `Except.error msg` when the
Python call raises an exception with message `str(exc) = msg`. -/
abbrev Registry := String → Option (Val → Except String Val)

/-- The external world during one pipeline pass: the registry's callables
(tools do network I/O, so different passes may observe different answers)
and the measured wall-clock duration (ms) of the call made at each position. -/
structure Env where
  reg : Registry
  dms : Nat → Nat

/-!
## Step Runner (`agents/executor.py`)
-/

/-- Model of `ExecutorAgent._run_step(step)`: unknown tool names yield an `error`
result without calling anything; a raising callable yields an `error`
result with the exception message; otherwise a `success` result.
`dur` is the measured duration of this call. -/
def run_step (env : Env) (dur : Nat) (step : Step) : StepResult :=
  let args := if step.args.truthy then step.args else Val.vdict []
  match env.reg step.tool with
  | none =>
      { step_id := step.id, tool := step.tool, args := args, status := "error",
        output := none, error := some ("Unknown tool: " ++ step.tool),
        duration_ms := dur }
  | some f =>
      match f args with
      | Except.ok output =>
          { step_id := step.id, tool := step.tool, args := args, status := "success",
            output := some output, error := none, duration_ms := dur }
      | Except.error msg =>
          { step_id := step.id, tool := step.tool, args := args, status := "error",
            output := none, error := some msg, duration_ms := dur }

/-- Run the steps one after another on the calling thread (the
`len(steps) <= 1` branch of `execute`); `k` is the position of the first
step, used to address the measured durations. -/
def run_seq (env : Env) : Nat → List Step → List StepResult
  | _, [] => []
  | k, s :: rest => run_step env (env.dms k) s :: run_seq env (k + 1) rest

/-- Write each completed future's result into its index-addressed slot, in
completion order (`for future in as_completed(...): results[idx] = ...`). -/
def fillSlots (f : Nat → StepResult) : List Nat → List (Option StepResult) → List (Option StepResult)
  | [], acc => acc
  | i :: rest, acc => fillSlots f rest (acc.set i (some (f i)))

/-- Model of `ExecutorAgent.execute(plan)`: at most one step runs inline; otherwise
all steps are submitted to a bounded worker pool and the results are
collected into a pre-sized slot list addressed by step index, then the
non-`None` slots are returned.  `order` is the completion order in which
`as_completed` yields the futures. -/
def execute (env : Env) (plan : Plan) (order : List Nat) : List StepResult :=
  let steps := plan.steps
  if steps.length ≤ 1 then run_seq env 0 steps
  else
    (fillSlots (fun i => run_step env (env.dms i) (steps.getD i default)) order
      (List.replicate steps.length none)).filterMap id

/-- Model of `\x7bstep["id"]: step for step in plan.get("steps", [])\x7d` and
`.get(sid)`: the last step with a given id wins, as in a dict comprehension. -/
def step_by_id (plan : Plan) (sid : Val) : Option Step :=
  plan.steps.foldl (fun acc s => if s.id = sid then some s else acc) none

/-- Body of `ExecutorAgent.retry_failed`, walking the results with their
positions (`k` is the position of the first result in the full list). -/
def retry_failed_go (env : Env) (plan : Plan) : Nat → List StepResult → List StepResult
  | _, [] => []
  | k, r :: rest =>
      (if r.status = "error" then
         match step_by_id plan r.step_id with
         | some s => run_step env (env.dms k) s
         | none => r
       else r) :: retry_failed_go env plan (k + 1) rest

/-- Model of `ExecutorAgent.retry_failed(plan, step_results)`: re-run each `error`
result's step synchronously when its id is found in the plan; pass
everything else through unchanged. -/
def retry_failed (env : Env) (plan : Plan) (results : List StepResult) : List StepResult :=
  retry_failed_go env plan 0 results

/-!
## Concrete sample data used by witnesses and counterexamples
-/

/-- A tool callable that always raises (`Exception("boom")`). -/
def tool_fail : Val → Except String Val := fun _ => Except.error "boom"

/-- A registry moment in which only `weather_current` is registered and its
callable raises. -/
def reg0 : Registry := fun t => if t = "weather_current" then some tool_fail else none

/-- A sample pass environment over `reg0`, every call measured at 7 ms. -/
def env0 : Env := ⟨reg0, fun _ => 7⟩

/-- A step naming a tool absent from `reg0`. -/
def stepGhost : Step := ⟨Val.vstr "s1", "ghost", Val.vdict [], Val.vstr ""⟩

/-- A step whose tool raises under `reg0`. -/
def stepWeather : Step := ⟨Val.vstr "s2", "weather_current", Val.vdict [], Val.vstr ""⟩

/-- A two-step plan: one unknown tool, one raising tool. -/
def planA : Plan := ⟨Val.vstr "g", [stepGhost, stepWeather]⟩

/-- A one-step plan containing only the raising weather step. -/
def planB : Plan := ⟨Val.vstr "g", [stepWeather]⟩

/-- A successful result carrying a source_url output. -/
def r_ok : StepResult :=
  ⟨Val.vstr "s0", "github_search", Val.vdict [], "success",
    some (Val.vdict [("source_url", Val.vstr "http://a")]), none, 3⟩

/-- An error result whose step id matches nothing in `planB`. -/
def r_err_nomatch : StepResult :=
  ⟨Val.vstr "zz", "weather_current", Val.vdict [], "error", none, some "x", 3⟩

/-- An error result whose step id matches `stepWeather` in `planB`. -/
def r_err_match : StepResult :=
  ⟨Val.vstr "s2", "weather_current", Val.vdict [], "error", none, some "x", 3⟩

/-- A mixed results list exercising all three retry_failed branches. -/
def resultsB : List StepResult := [r_ok, r_err_nomatch, r_err_match]

/-!
## Plan Builder (`agents/planner.py`)

`PlannerAgent._normalize_plan` raises on malformed oracle output; raised
Python exceptions are modelled by `Except.error` over `PyErr`.
-/

/-- The exceptions the embedded code can raise: the `ValueError`s of
`_normalize_plan`, the `AttributeError` from calling `.get` on a non-dict
value, and the `TypeError` from slicing or iterating a non-sequence. -/
inductive PyErr where
  | notObject : PyErr
  | missingSteps : PyErr
  | attributeError : PyErr
  | unknownTool (tool : Option Val) : PyErr
  | typeError : PyErr
deriving DecidableEq

/-- Python `x or default` where `x` came from `d.get(k)` (`none` models an
absent key, i.e. Python `None`). -/
def pyOr (a : Option Val) (b : Val) : Val :=
  match a with
  | some v => if v.truthy then v else b
  | none => b

/-- Normalization of the step at 1-based position `idx`
(the body of the `for idx, step in enumerate(steps, start=1)` loop):
`step.get("tool")` must be a truthy string that is a registry key, else
`ValueError("Unknown tool in plan: <tool>")`; id/args/purpose get defaults. -/
def normalize_step (reg : Registry) (idx : Nat) (v : Val) : Except PyErr Step :=
  match v with
  | Val.vdict kvs =>
      match dget kvs "tool" with
      | some (Val.vstr t) =>
          if t ≠ "" ∧ (reg t).isSome then
            Except.ok
              ⟨pyOr (dget kvs "id") (Val.vstr ("step_" ++ toString idx)), t,
                pyOr (dget kvs "args") (Val.vdict []),
                pyOr (dget kvs "purpose") (Val.vstr "")⟩
          else Except.error (PyErr.unknownTool (some (Val.vstr t)))
      | other => Except.error (PyErr.unknownTool other)
  | _ => Except.error PyErr.attributeError

/-- Normalize all steps, numbering them from `idx`; the first raised
exception propagates. -/
def normalize_steps (reg : Registry) : Nat → List Val → Except PyErr (List Step)
  | _, [] => Except.ok []
  | idx, v :: rest =>
      match normalize_step reg idx v with
      | Except.error e => Except.error e
      | Except.ok s =>
          match normalize_steps reg (idx + 1) rest with
          | Except.error e => Except.error e
          | Except.ok ss => Except.ok (s :: ss)

/-- Model of `PlannerAgent._normalize_plan(plan, task)`: the oracle output must be a
dict with a non-empty `steps` list; each step is normalized in order; the
goal defaults to the original task text. -/
def normalize_plan (reg : Registry) (rawPlan : Val) (task : String) : Except PyErr Plan :=
  match rawPlan with
  | Val.vdict kvs =>
      match dget kvs "steps" with
      | some (Val.vlist steps) =>
          if steps.isEmpty then Except.error PyErr.missingSteps
          else
            match normalize_steps reg 1 steps with
            | Except.error e => Except.error e
            | Except.ok nsteps =>
                Except.ok ⟨pyOr (dget kvs "goal") (Val.vstr task), nsteps⟩
      | _ => Except.error PyErr.missingSteps
  | _ => Except.error PyErr.notObject

/-- Model of `PlannerAgent.create_plan(task)` with the structured-response oracle as
an explicit parameter. -/
def create_plan (reg : Registry) (planOracle : String → Val) (task : String) :
    Except PyErr Plan :=
  normalize_plan reg (planOracle task) task

/-- Oracle plan output in which two steps carry the same explicit id. -/
def rawDup : Val :=
  Val.vdict [("steps", Val.vlist [
    Val.vdict [("id", Val.vstr "x"), ("tool", Val.vstr "weather_current")],
    Val.vdict [("id", Val.vstr "x"), ("tool", Val.vstr "weather_current")]])]

/-- The normalized plan produced from `rawDup`: both steps carry id "x". -/
def planDup : Plan :=
  ⟨Val.vstr "t",
    [⟨Val.vstr "x", "weather_current", Val.vdict [], Val.vstr ""⟩,
     ⟨Val.vstr "x", "weather_current", Val.vdict [], Val.vstr ""⟩]⟩

/-- Oracle plan output in which both steps omit their id. -/
def rawNoIds : Val :=
  Val.vdict [("steps", Val.vlist [
    Val.vdict [("tool", Val.vstr "weather_current")],
    Val.vdict [("tool", Val.vstr "weather_current")]])]

/-- The normalized plan produced from `rawNoIds`: default ids step_1, step_2. -/
def planDef : Plan :=
  ⟨Val.vstr "t",
    [⟨Val.vstr "step_1", "weather_current", Val.vdict [], Val.vstr ""⟩,
     ⟨Val.vstr "step_2", "weather_current", Val.vdict [], Val.vstr ""⟩]⟩

/-- The decimal digit characters of `n`, most significant first. -/
def digitsList (n : Nat) : List Char :=
  if h : n / 10 = 0 then [Nat.digitChar (n % 10)]
  else digitsList (n / 10) ++ [Nat.digitChar (n % 10)]
decreasing_by
  have hn : n ≠ 0 := fun hz => h (by simp [hz])
  exact Nat.div_lt_self (Nat.pos_of_ne_zero hn) (by norm_num)

/-!
## Result Reconciler (`agents/verifier.py`)

`VerifierAgent.verify` repairs once, compacts for the oracle, then applies
the deterministic enrichment rules.  The oracle `chat_json` call is the
function parameter `vOracle`, applied to the same data the prompt is built
from (task, plan, compacted results).
-/

/-- Projection of one repository item to the fixed small field set kept by
`_compact_step_results` (a Python dict literal: absent fields become `None`). -/
def compact_item (kvs : List (String × Val)) : Val :=
  Val.vdict [("name", (dget kvs "name").getD Val.vnull),
             ("full_name", (dget kvs "full_name").getD Val.vnull),
             ("url", (dget kvs "url").getD Val.vnull),
             ("stars", (dget kvs "stars").getD Val.vnull),
             ("language", (dget kvs "language").getD Val.vnull)]

/-- Trim the (already sliced) item list; each element must expose `.get`
(a dict), otherwise `AttributeError` is raised. -/
def compact_items : List Val → Except PyErr (List Val)
  | [] => Except.ok []
  | v :: rest =>
      match v with
      | Val.vdict kvs =>
          match compact_items rest with
          | Except.error e => Except.error e
          | Except.ok cs => Except.ok (compact_item kvs :: cs)
      | _ => Except.error PyErr.attributeError

/-- Compaction of one step output: a dict output holding an `items` key is
reduced to query/total_count/first-5-projected-items/source_url; anything
else passes through.  `items[:5]` requires a sliceable value (`TypeError`
otherwise); iterating a non-empty string yields characters without `.get`
(`AttributeError`). -/
def compact_output (output : Option Val) : Except PyErr (Option Val) :=
  match output with
  | some (Val.vdict kvs) =>
      match dget kvs "items" with
      | some itemsVal =>
          match itemsVal with
          | Val.vlist l =>
              match compact_items (l.take 5) with
              | Except.error e => Except.error e
              | Except.ok trimmed =>
                  Except.ok (some (Val.vdict
                    [("query", (dget kvs "query").getD Val.vnull),
                     ("total_count", (dget kvs "total_count").getD Val.vnull),
                     ("items", Val.vlist trimmed),
                     ("source_url", (dget kvs "source_url").getD Val.vnull)]))
          | Val.vstr st =>
              if st = "" then
                Except.ok (some (Val.vdict
                  [("query", (dget kvs "query").getD Val.vnull),
                   ("total_count", (dget kvs "total_count").getD Val.vnull),
                   ("items", Val.vlist []),
                   ("source_url", (dget kvs "source_url").getD Val.vnull)]))
              else Except.error PyErr.attributeError
          | _ => Except.error PyErr.typeError
      | none => Except.ok output
  | _ => Except.ok output

/-- The reduced dict forwarded to the oracle for one step result. -/
def compact_result (r : StepResult) : Except PyErr Val :=
  match compact_output r.output with
  | Except.error e => Except.error e
  | Except.ok co =>
      Except.ok (Val.vdict
        [("step_id", r.step_id),
         ("tool", Val.vstr r.tool),
         ("status", Val.vstr r.status),
         ("output", co.getD Val.vnull),
         ("error", match r.error with
                   | some e => Val.vstr e
                   | none => Val.vnull)])

/-- Model of `VerifierAgent._compact_step_results`. -/
def compact_step_results : List StepResult → Except PyErr (List Val)
  | [] => Except.ok []
  | r :: rest =>
      match compact_result r with
      | Except.error e => Except.error e
      | Except.ok c =>
          match compact_step_results rest with
          | Except.error e => Except.error e
          | Except.ok cs => Except.ok (c :: cs)

/-!
The single collection loop of `verify` (lines 61–80) is split below into one
pass per accumulator; each pass keeps exactly the elements the corresponding
branch of the loop body touches, in loop order.
-/

/-- Truthy `source_url` values of dict outputs, in declared order
(`if source_url: allowed_sources.append(source_url)`). -/
def source_urls : List StepResult → List Val
  | [] => []
  | r :: rest =>
      match r.output with
      | some (Val.vdict kvs) =>
          match dget kvs "source_url" with
          | some u => if u.truthy then u :: source_urls rest else source_urls rest
          | none => source_urls rest
      | _ => source_urls rest

/-- The dict elements of an `items` value; a non-list value contributes
nothing (`if isinstance(items, list)` guard). -/
def dict_items (v : Val) : List (List (String × Val)) :=
  match v with
  | Val.vlist l =>
      l.filterMap (fun it =>
        match it with
        | Val.vdict kvs => some kvs
        | _ => none)
  | _ => []

/-- Accumulator `repo_items`: every dict item of every `github_search` dict output, in
order (`items = output.get("items", [])`). -/
def repo_items : List StepResult → List (List (String × Val))
  | [] => []
  | r :: rest =>
      match r.output with
      | some (Val.vdict kvs) =>
          if r.tool = "github_search" then
            dict_items ((dget kvs "items").getD (Val.vlist [])) ++ repo_items rest
          else repo_items rest
      | _ => repo_items rest

/-- Accumulator `weather_info`: the dict output of the last `weather_current` result
(each loop iteration overwrites the previous value). -/
def weather_info (results : List StepResult) : Option (List (String × Val)) :=
  (results.filterMap (fun r =>
    match r.output with
    | some (Val.vdict kvs) => if r.tool = "weather_current" then some kvs else none
    | _ => none)).getLast?

/-- Truthy `url` fields of the collected repository items, appended after all
source_url values. -/
def repo_urls (items : List (List (String × Val))) : List Val :=
  items.filterMap (fun kvs =>
    match dget kvs "url" with
    | some u => if u.truthy then some u else none
    | none => none)

/-- The raw source accumulator before deduplication. -/
def collected_sources (results : List StepResult) : List Val :=
  source_urls results ++ repo_urls (repo_items results)

/-- Deduplication `allowed_sources = list(dict.fromkeys(allowed_sources))`. -/
def allowed_sources (results : List StepResult) : List Val :=
  dedupFirst (collected_sources results)

/-- The multiset of truthy tool names of the plan's steps (the Python code
builds a set; only emptiness, `== {"llm_generate"}` and intersection tests
are performed on it, which the list answers identically). -/
def tools_used (plan : Plan) : List String :=
  (plan.steps.map Step.tool).filter (fun t => t != "")

/-- Test `tools_used == \x7b"llm_generate"\x7d`. -/
def tools_only_llm (plan : Plan) : Bool :=
  !(tools_used plan).isEmpty && (tools_used plan).all (fun t => t == "llm_generate")

/-- Test that `tools_used & \x7b"github_search", "weather_current"\x7d` is non-empty. -/
def tools_hit_search_or_weather (plan : Plan) : Bool :=
  (tools_used plan).any (fun t => t == "github_search" || t == "weather_current")

/-- Python's whitespace test for `str.strip`/`str.split` (space, tab,
newline, carriage return, vertical tab, form feed). -/
def isPySpace (c : Char) : Bool :=
  c = ' ' || c = '\t' || c = '\n' || c = '\r' || c = '\x0b' || c = '\x0c'

/-- Drop leading whitespace characters. -/
def dropLeading : List Char → List Char
  | [] => []
  | c :: rest => if isPySpace c then dropLeading rest else c :: rest

/-- Python `s.strip()`: remove leading and trailing whitespace. -/
def pyStrip (s : String) : String :=
  String.mk ((dropLeading ((dropLeading s.data).reverse)).reverse)

/-- Accumulating worker for `str.split()`: split on whitespace runs,
discarding empty words; `cur` holds the current word reversed. -/
def pyWordsAux (cur : List Char) : List Char → List String
  | [] => if cur.isEmpty then [] else [String.mk cur.reverse]
  | c :: rest =>
      if isPySpace c then
        if cur.isEmpty then pyWordsAux [] rest
        else String.mk cur.reverse :: pyWordsAux [] rest
      else pyWordsAux (c :: cur) rest

/-- Python `s.split()` with no separator argument. -/
def pyWords (s : String) : List String := pyWordsAux [] s.data

/-- Python `str(x or "")`. -/
def strOrEmpty (o : Option Val) : String :=
  match o with
  | some v => if v.truthy then v.pyStr else ""
  | none => ""

/-- The stripped text of the first successful `llm_generate` result (empty
when there is none, or its output is not a dict: the loop breaks with
`speech_text` still `""`). -/
def speech_text (results : List StepResult) : String :=
  match results.find? (fun r => r.tool == "llm_generate" && r.status == "success") with
  | some r =>
      match r.output with
      | some (Val.vdict kvs) => pyStrip (strOrEmpty (dget kvs "text"))
      | _ => ""
  | none => ""

/-- Count `len(speech_text.split())`: whitespace-separated token count. -/
def word_count (s : String) : Nat := (pyWords s).length

/-- Python `x or y` where both operands came from `.get` (`None` for absent). -/
def pyOrVal (a b : Option Val) : Val :=
  match a with
  | some v => if v.truthy then v else b.getD Val.vnull
  | none => b.getD Val.vnull

/-- One entry of the repository sentence: `"<name> (<url>, <stars>★)"` when a
star count is present (`is not None`), `"<name> (<url>)"` otherwise; skipped
unless both name and url are truthy. -/
def repo_bit (kvs : List (String × Val)) : Option String :=
  let name := pyOrVal (dget kvs "full_name") (dget kvs "name")
  let url := (dget kvs "url").getD Val.vnull
  let stars := (dget kvs "stars").getD Val.vnull
  if name.truthy && url.truthy then
    some (if stars = Val.vnull then name.pyStr ++ " (" ++ url.pyStr ++ ")"
          else name.pyStr ++ " (" ++ url.pyStr ++ ", " ++ stars.pyStr ++ "★)")
  else none

/-- The kept entries among the first 3 repository items. -/
def repo_bits (items : List (List (String × Val))) : List String :=
  (items.take 3).filterMap repo_bit

/-- The `"Top repositories: ..."` sentence, when any entry was produced. -/
def repo_sentence (items : List (List (String × Val))) : Option String :=
  if items.isEmpty then none
  else if (repo_bits items).isEmpty then none
  else some ("Top repositories: " ++ String.intercalate "; " (repo_bits items) ++ ".")

/-- The weather sentence, degrading gracefully on each missing sub-field. -/
def weather_sentence (kvs : List (String × Val)) : String :=
  let location := (dget kvs "location").getD Val.vnull
  let summary := (dget kvs "weather_summary").getD Val.vnull
  let temp := (dget kvs "temperature_c").getD Val.vnull
  let wind := (dget kvs "wind_kph").getD Val.vnull
  let s1 := if location.truthy then "Current weather in " ++ location.pyStr
            else "Current weather"
  if summary.truthy ∨ temp ≠ Val.vnull then
    s1 ++ ": " ++ String.intercalate ", "
      ((if summary.truthy then [summary.pyStr] else []) ++
       (if temp ≠ Val.vnull then [temp.pyStr ++ "°C"] else []) ++
       (if wind ≠ Val.vnull then ["wind " ++ wind.pyStr ++ " kph"] else [])) ++ "."
  else s1 ++ "."

/-- The `parts` list of the multi-domain composition: repository sentence
first, then the weather sentence when a weather output exists. -/
def compose_parts (items : List (List (String × Val)))
    (winfo : Option (List (String × Val))) : List String :=
  (match repo_sentence items with
   | some s => [s]
   | none => []) ++
  (match winfo with
   | some w => [weather_sentence w]
   | none => [])

/-- The fixed limitation string appended after a failed repair pass. -/
def fail_msg : String := "Some tools failed after retry; partial data returned."

/-- The guard of the single-tool narration override (lines 87 and 95 of
`verifier.py`): the distinct plan tools are exactly `llm_generate` and the
located speech text is non-empty. -/
def llm_override_fires (plan : Plan) (repaired : List StepResult) : Bool :=
  tools_only_llm plan && speech_text repaired != ""

/-- The guard of the multi-domain narration override (lines 104 and 139):
the plan tools meet `{github_search, weather_current}` and the composition
produced at least one sentence. -/
def multi_override_fires (plan : Plan) (repaired : List StepResult) : Bool :=
  tools_hit_search_or_weather plan &&
    !(compose_parts (repo_items repaired) (weather_info repaired)).isEmpty

/-- The oracle dict after the single-tool narration override (lines 87–102):
`final_answer` becomes the speech text and `data` the
introduction_speech/word_count dict when the override fires. -/
def v_after_llm (plan : Plan) (repaired : List StepResult)
    (v0 : List (String × Val)) : List (String × Val) :=
  if llm_override_fires plan repaired then
    dset (dset v0 "final_answer" (Val.vstr (speech_text repaired))) "data"
      (Val.vdict [("kind", Val.vstr "introduction_speech"),
                  ("word_count", Val.vint (word_count (speech_text repaired)))])
  else v0

/-- The value stored under `"sources"` (line 142): the collected deduplicated
sources, cleared when the single-tool override fired (line 102). -/
def sources_value (plan : Plan) (repaired : List StepResult) : List Val :=
  if llm_override_fires plan repaired then [] else allowed_sources repaired

/-- The dict after the multi-domain narration override (line 140). -/
def v_after_multi (plan : Plan) (repaired : List StepResult)
    (v1 : List (String × Val)) : List (String × Val) :=
  if multi_override_fires plan repaired then
    dset v1 "final_answer" (Val.vstr (pyStrip (String.intercalate " "
      (compose_parts (repo_items repaired) (weather_info repaired)))))
  else v1

/-- The dict after both overrides and the `"sources"` assignment. -/
def v_with_sources (plan : Plan) (repaired : List StepResult)
    (v0 : List (String × Val)) : List (String × Val) :=
  dset (v_after_multi plan repaired (v_after_llm plan repaired v0)) "sources"
    (Val.vlist (sources_value plan repaired))

/-- The deterministic enrichment of the oracle's verification dict `v0`
(lines 61–152 of `verifier.py`, after the oracle call): overrides, source
attachment, and the completeness downgrade when some step is still not
successful after repair. -/
def verify_enrich (plan : Plan) (repaired : List StepResult)
    (v0 : List (String × Val)) : List (String × Val) :=
  let v3 := v_with_sources plan repaired v0
  if (repaired.filter (fun r => r.status != "success")).isEmpty then v3
  else
    dset (dset v3 "limitations"
      (Val.vlist ((match dget v3 "limitations" with
                   | some (Val.vlist l) => l
                   | _ => []) ++ [Val.vstr fail_msg]))) "completeness"
      (Val.vstr "partial")

/-- Model of `VerifierAgent.verify(task, plan, step_results)`.  Returns the final
verification dict, or the exception raised during compaction. -/
def verify (env : Env) (vOracle : String → Plan → List Val → List (String × Val))
    (task : String) (plan : Plan) (results : List StepResult) :
    Except PyErr (List (String × Val)) :=
  match compact_step_results (retry_failed env plan results) with
  | Except.error e => Except.error e
  | Except.ok compacted =>
      Except.ok (verify_enrich plan (retry_failed env plan results)
        (vOracle task plan compacted))

/-!
## Verifier sample data
-/

/-- A constant verifier oracle returning an empty verification dict. -/
def vOracle0 : String → Plan → List Val → List (String × Val) := fun _ _ _ => []

/-- A single llm_generate step. -/
def stepLLM : Step := ⟨Val.vstr "s1", "llm_generate", Val.vdict [], Val.vstr ""⟩

/-- A plan whose only tool is llm_generate. -/
def planL : Plan := ⟨Val.vstr "g", [stepLLM]⟩

/-- A successful llm_generate result whose output also carries a source_url. -/
def rLLM : StepResult :=
  ⟨Val.vstr "s1", "llm_generate", Val.vdict [], "success",
    some (Val.vdict [("text", Val.vstr "hi"), ("source_url", Val.vstr "http://x")]),
    none, 3⟩

/-- A repository item with name, url and stars. -/
def repoItem (n u : String) (st : Int) : Val :=
  Val.vdict [("name", Val.vstr n), ("url", Val.vstr u), ("stars", Val.vint st)]

/-- A successful github_search result with three items (stars 100, 50, 10). -/
def rGit : StepResult :=
  ⟨Val.vstr "g1", "github_search", Val.vdict [], "success",
    some (Val.vdict
      [("items", Val.vlist [repoItem "r1" "u1" 100, repoItem "r2" "u2" 50,
                            repoItem "r3" "u3" 10]),
       ("source_url", Val.vstr "http://gh")]),
    none, 3⟩

/-- A successful weather_current result for Pune. -/
def rWeather : StepResult :=
  ⟨Val.vstr "w1", "weather_current", Val.vdict [], "success",
    some (Val.vdict
      [("location", Val.vstr "Pune, India"), ("weather_summary", Val.vstr "Clear sky"),
       ("temperature_c", Val.vint 30), ("wind_kph", Val.vint 12)]),
    none, 3⟩

/-- A plan using github_search and weather_current. -/
def planGW : Plan :=
  ⟨Val.vstr "g",
    [⟨Val.vstr "g1", "github_search", Val.vdict [], Val.vstr ""⟩,
     ⟨Val.vstr "w1", "weather_current", Val.vdict [], Val.vstr ""⟩]⟩

/-!
## Orchestrator (`main.py`)
-/

/-- Model of `_extract_step_errors(step_results)`: one `"<tool>: <error>"` entry per
`error` result, falling back to `"unknown_tool"`/`"unknown error"` for falsy
fields. -/
def extract_step_errors (results : List StepResult) : List String :=
  results.filterMap (fun r =>
    if r.status = "error" then
      some ((if r.tool ≠ "" then r.tool else "unknown_tool") ++ ": " ++
            (match r.error with
             | some e => if e ≠ "" then e else "unknown error"
             | none => "unknown error"))
    else none)

/-- Python `map(str, limitations)` over a truthy limitations value: a list maps its
elements through `str`, a string iterates its characters, a dict iterates its
keys; other truthy values are not iterable (`TypeError`). -/
def join_limitations : Val → Except PyErr (List String)
  | Val.vlist l => Except.ok (l.map Val.pyStr)
  | Val.vstr st => Except.ok (st.data.map (fun c => String.mk [c]))
  | Val.vdict kvs => Except.ok (kvs.map (fun p => p.1))
  | _ => Except.error PyErr.typeError

/-- Model of `_build_replan_task(task, steps, final)`: `None` when there is nothing
actionable, otherwise the corrective task text built from the error summary
and the limitation strings. -/
def build_replan_task (task : String) (steps : List StepResult)
    (final : List (String × Val)) : Except PyErr (Option String) :=
  let errors := extract_step_errors steps
  let limitations := (dget final "limitations").getD (Val.vlist [])
  if errors.isEmpty ∧ ¬ limitations.truthy then Except.ok none
  else
    match (if limitations.truthy then join_limitations limitations
           else Except.ok []) with
    | Except.error e => Except.error e
    | Except.ok lims =>
        Except.ok (some (task ++ "\n\n" ++
          "Fix missing or failed info from the previous attempt. " ++
          "Use only the necessary tools. " ++
          String.intercalate " "
            ((if ¬ errors.isEmpty then
                ["Errors: " ++ String.intercalate "; " errors] else []) ++
             (if limitations.truthy then
                ["Limitations: " ++ String.intercalate "; " lims] else []))))

/-- The replan record attached as `auto_replan`. -/
structure ReplanEnvelope where
  triggered : Bool
  reason : String
  task : String
  plan : Plan
  steps : List StepResult
  final : List (String × Val)
deriving DecidableEq

/-- The response dict of `POST /run` (its core fields; `metrics` inlined). -/
structure RunResult where
  task : String
  plan : Plan
  steps : List StepResult
  final : List (String × Val)
  auto_replan : Option ReplanEnvelope
  tool_execution_ms : Nat
  tool_count : Nat
deriving DecidableEq

/-- Model of `run_task(request)` (the body inside the `try`): plan → execute → verify;
on `completeness == "partial"` build the corrective task and, when one was
built, run one more full cycle, keeping the replanned outcome only when its
completeness is `"complete"`.  The four `Env`s are the external world at the
two execute and the two verify-repair passes; the replan cycle's verify is
posed the original `task`. -/
def run_task (e1 e2 e3 e4 : Env) (order1 order2 : List Nat)
    (planOracle : String → Val)
    (vOracle : String → Plan → List Val → List (String × Val))
    (task : String) : Except PyErr RunResult :=
  match create_plan e1.reg planOracle task with
  | Except.error e => Except.error e
  | Except.ok plan =>
      let steps := execute e1 plan order1
      match verify e2 vOracle task plan steps with
      | Except.error e => Except.error e
      | Except.ok final =>
          let toolTime := (steps.map StepResult.duration_ms).sum
          if dget final "completeness" = some (Val.vstr "partial") then
            match build_replan_task task steps final with
            | Except.error e => Except.error e
            | Except.ok none =>
                Except.ok ⟨task, plan, steps, final, none, toolTime, steps.length⟩
            | Except.ok (some rtask) =>
                match create_plan e3.reg planOracle rtask with
                | Except.error e => Except.error e
                | Except.ok rplan =>
                    let rsteps := execute e3 rplan order2
                    match verify e4 vOracle task rplan rsteps with
                    | Except.error e => Except.error e
                    | Except.ok rfinal =>
                        let renv : ReplanEnvelope :=
                          ⟨true, "Previous attempt incomplete", rtask, rplan,
                            rsteps, rfinal⟩
                        if dget rfinal "completeness" = some (Val.vstr "complete") then
                          Except.ok ⟨task, rplan, rsteps, rfinal, some renv,
                            toolTime, rsteps.length⟩
                        else
                          Except.ok ⟨task, plan, steps, final, some renv,
                            toolTime, steps.length⟩
          else Except.ok ⟨task, plan, steps, final, none, toolTime, steps.length⟩

/-- The number of full plan→execute→verify passes a `run_task` call makes,
following the same control flow. -/
def run_task_passes (e1 e2 _e3 _e4 : Env) (order1 _order2 : List Nat)
    (planOracle : String → Val)
    (vOracle : String → Plan → List Val → List (String × Val))
    (task : String) : Nat :=
  match create_plan e1.reg planOracle task with
  | Except.error _ => 1
  | Except.ok plan =>
      match verify e2 vOracle task plan (execute e1 plan order1) with
      | Except.error _ => 1
      | Except.ok final =>
          if dget final "completeness" = some (Val.vstr "partial") then
            match build_replan_task task (execute e1 plan order1) final with
            | Except.ok (some _) => 2
            | _ => 1
          else 1

/-!
## Orchestrator sample data
-/

/-- One-step oracle plan output with an explicit goal. -/
def rawOne : Val :=
  Val.vdict [("goal", Val.vstr "g"),
             ("steps", Val.vlist [Val.vdict [("tool", Val.vstr "weather_current")]])]

/-- A constant planner oracle returning `rawOne` for every task text. -/
def planOracle0 : String → Val := fun _ => rawOne

/-- The normalized plan of `rawOne`. -/
def planOne : Plan :=
  ⟨Val.vstr "g", [⟨Val.vstr "step_1", "weather_current", Val.vdict [], Val.vstr ""⟩]⟩

/-- The error result `env0`'s raising weather tool produces for `planOne`. -/
def rs1 : StepResult :=
  ⟨Val.vstr "step_1", "weather_current", Val.vdict [], "error", none, some "boom", 7⟩

/-- The verification produced for the all-failing pass under the empty
oracle: forced partial with the fixed limitation. -/
def final1 : List (String × Val) :=
  [("sources", Val.vlist []), ("limitations", Val.vlist [Val.vstr fail_msg]),
   ("completeness", Val.vstr "partial")]

/-- The corrective task text built for task "t0" from the failing pass. -/
def rtask1 : String :=
  "t0\n\nFix missing or failed info from the previous attempt. " ++
  "Use only the necessary tools. Errors: weather_current: boom " ++
  "Limitations: Some tools failed after retry; partial data returned."

/-- A registry moment in which the weather tool succeeds with an empty dict. -/
def envOK : Env :=
  ⟨fun t => if t = "weather_current" then some (fun _ => Except.ok (Val.vdict []))
    else none, fun _ => 5⟩

/-- The success result `envOK`'s weather tool produces for `planOne`. -/
def rsOK : StepResult :=
  ⟨Val.vstr "step_1", "weather_current", Val.vdict [], "success",
    some (Val.vdict []), none, 5⟩

/-- A verifier oracle that always reports partial completeness. -/
def vOracleP : String → Plan → List Val → List (String × Val) :=
  fun _ _ _ => [("completeness", Val.vstr "partial")]

/-- The verification of a repaired-successfully weather pass under
`vOracleP`: the oracle's partial flag survives, the degraded weather sentence
is composed, sources are empty. -/
def finalP : List (String × Val) :=
  [("completeness", Val.vstr "partial"),
   ("final_answer", Val.vstr "Current weather."), ("sources", Val.vlist [])]

/-- The corrective task built from the failing execute pass when the final
verification carries no limitations list. -/
def rtask2 : String :=
  "t0\n\nFix missing or failed info from the previous attempt. " ++
  "Use only the necessary tools. Errors: weather_current: boom"

/-!
## Theorems

Helper lemmas first, then the claim theorems with their witnesses and
counterexamples.
-/
theorem dget_dupdate_self (kvs : List (String × Val)) (k : String) (v : Val)
    (h : (dget kvs k).isSome) : dget (dupdate kvs k v) k = some v := by
  induction kvs with
  | nil => simp [dget] at h
  | cons p rest ih =>
      obtain ⟨k2, w⟩ := p
      by_cases hk : k2 = k
      · subst hk
        simp [dget, dupdate]
      · simp only [dget, hk, if_false] at h
        simp [dget, dupdate, hk, ih h]

theorem dget_dupdate_ne (kvs : List (String × Val)) (k k' : String) (v : Val)
    (h : k' ≠ k) : dget (dupdate kvs k v) k' = dget kvs k' := by
  induction kvs with
  | nil => simp [dget, dupdate]
  | cons p rest ih =>
      obtain ⟨k2, w⟩ := p
      by_cases hk : k2 = k
      · subst hk
        simp [dget, dupdate, Ne.symm h, ih]
      · by_cases hk' : k2 = k'
        · subst hk'
          simp [dget, dupdate, hk]
        · simp [dget, dupdate, hk, hk', ih]

theorem dget_append_right (kvs tail : List (String × Val)) (k : String)
    (h : dget kvs k = none) : dget (kvs ++ tail) k = dget tail k := by
  induction kvs with
  | nil => simp
  | cons p rest ih =>
      obtain ⟨k2, w⟩ := p
      by_cases hk : k2 = k
      · simp [dget, hk] at h
      · simp only [dget, hk, if_false] at h
        simpa [dget, hk] using ih h

theorem dget_append_single_ne (kvs : List (String × Val)) (k k' : String) (v : Val)
    (h : k' ≠ k) : dget (kvs ++ [(k, v)]) k' = dget kvs k' := by
  induction kvs with
  | nil => simp [dget, Ne.symm h]
  | cons p rest ih =>
      obtain ⟨k2, w⟩ := p
      by_cases hk' : k2 = k'
      · subst hk'
        simp [dget]
      · simp [dget, hk', ih]

theorem dget_dset_self (kvs : List (String × Val)) (k : String) (v : Val) :
    dget (dset kvs k v) k = some v := by
  unfold dset
  by_cases h : (dget kvs k).isSome
  · rw [if_pos h]
    exact dget_dupdate_self kvs k v h
  · rw [if_neg h]
    have hn : dget kvs k = none := Option.not_isSome_iff_eq_none.mp h
    rw [dget_append_right _ _ _ hn]
    simp [dget]

theorem dget_dset_ne (kvs : List (String × Val)) (k k' : String) (v : Val)
    (h : k' ≠ k) : dget (dset kvs k v) k' = dget kvs k' := by
  unfold dset
  by_cases hs : (dget kvs k).isSome
  · rw [if_pos hs]
    exact dget_dupdate_ne kvs k k' v h
  · rw [if_neg hs]
    exact dget_append_single_ne kvs k k' v h

theorem mem_dedupFirstAux {α : Type} [DecidableEq α] (seen l : List α) (x : α) :
    x ∈ dedupFirstAux seen l ↔ x ∈ l ∧ x ∉ seen := by
  induction l generalizing seen with
  | nil => simp [dedupFirstAux]
  | cons y ys ih =>
      unfold dedupFirstAux
      by_cases hy : y ∈ seen
      · rw [if_pos hy, ih]
        constructor
        · rintro ⟨hmem, hns⟩
          exact ⟨List.mem_cons_of_mem _ hmem, hns⟩
        · rintro ⟨hmem, hns⟩
          rcases List.mem_cons.mp hmem with rfl | hmem
          · exact absurd hy hns
          · exact ⟨hmem, hns⟩
      · rw [if_neg hy]
        constructor
        · intro hmem
          rcases List.mem_cons.mp hmem with rfl | hmem
          · exact ⟨List.mem_cons_self _ _, hy⟩
          · obtain ⟨h1, h2⟩ := (ih _).mp hmem
            refine ⟨List.mem_cons_of_mem _ h1, fun hc => h2 (List.mem_cons_of_mem _ hc)⟩
        · rintro ⟨hmem, hns⟩
          rcases List.mem_cons.mp hmem with rfl | hmem
          · exact List.mem_cons_self _ _
          · by_cases hx : x = y
            · subst hx
              exact List.mem_cons_self _ _
            · refine List.mem_cons_of_mem _ ((ih _).mpr ⟨hmem, ?_⟩)
              intro hc
              rcases List.mem_cons.mp hc with h | h
              · exact hx h
              · exact hns h

theorem nodup_dedupFirstAux {α : Type} [DecidableEq α] (seen l : List α) :
    (dedupFirstAux seen l).Nodup := by
  induction l generalizing seen with
  | nil => simp [dedupFirstAux]
  | cons y ys ih =>
      unfold dedupFirstAux
      by_cases hy : y ∈ seen
      · rw [if_pos hy]
        exact ih seen
      · rw [if_neg hy, List.nodup_cons]
        refine ⟨fun hc => ?_, ih (y :: seen)⟩
        exact ((mem_dedupFirstAux _ _ _).mp hc).2 (List.mem_cons_self _ _)

theorem sublist_dedupFirstAux {α : Type} [DecidableEq α] (seen l : List α) :
    (dedupFirstAux seen l).Sublist l := by
  induction l generalizing seen with
  | nil => simp [dedupFirstAux]
  | cons y ys ih =>
      unfold dedupFirstAux
      by_cases hy : y ∈ seen
      · rw [if_pos hy]
        exact (ih seen).trans (List.sublist_cons_self y ys)
      · rw [if_neg hy]
        exact (ih (y :: seen)).cons₂ y

theorem dedupFirst_nodup {α : Type} [DecidableEq α] (l : List α) :
    (dedupFirst l).Nodup := nodup_dedupFirstAux [] l

theorem dedupFirst_sublist {α : Type} [DecidableEq α] (l : List α) :
    (dedupFirst l).Sublist l := sublist_dedupFirstAux [] l

theorem mem_dedupFirst {α : Type} [DecidableEq α] (l : List α) (x : α) :
    x ∈ dedupFirst l ↔ x ∈ l := by
  simp [dedupFirst, mem_dedupFirstAux]

/-!
## Executor lemmas
-/

theorem run_step_unknown_tool (env : Env) (dur : Nat) (step : Step)
    (h : env.reg step.tool = none) :
    run_step env dur step =
      { step_id := step.id, tool := step.tool,
        args := if step.args.truthy then step.args else Val.vdict [],
        status := "error", output := none,
        error := some ("Unknown tool: " ++ step.tool), duration_ms := dur } := by
  simp [run_step, h]

theorem run_step_tool_raises (env : Env) (dur : Nat) (step : Step)
    (f : Val → Except String Val) (msg : String)
    (hf : env.reg step.tool = some f)
    (hr : f (if step.args.truthy then step.args else Val.vdict []) = Except.error msg) :
    run_step env dur step =
      { step_id := step.id, tool := step.tool,
        args := if step.args.truthy then step.args else Val.vdict [],
        status := "error", output := none, error := some msg, duration_ms := dur } := by
  simp [run_step, hf, hr]

theorem length_fillSlots (f : Nat → StepResult) (order : List Nat)
    (acc : List (Option StepResult)) : (fillSlots f order acc).length = acc.length := by
  induction order generalizing acc with
  | nil => rfl
  | cons i rest ih => simp [fillSlots, ih, List.length_set]

theorem getD_set_self {α : Type} (l : List α) (i : Nat) (x d : α) (h : i < l.length) :
    (l.set i x).getD i d = x := by
  rw [List.getD_eq_getElem _ _ (by simpa using h)]
  simp

theorem getD_set_ne {α : Type} (l : List α) (i j : Nat) (x d : α) (h : i ≠ j) :
    (l.set i x).getD j d = l.getD j d := by
  by_cases hj : j < l.length
  · rw [List.getD_eq_getElem _ _ (by simpa using hj), List.getD_eq_getElem _ _ hj]
    exact List.getElem_set_ne h _
  · have hle : l.length ≤ j := Nat.le_of_not_lt hj
    rw [List.getD_eq_default _ _ (by simpa using hle), List.getD_eq_default _ _ hle]

theorem getD_set_oob {α : Type} (l : List α) (i j : Nat) (x d : α) (h : l.length ≤ j) :
    (l.set i x).getD j d = l.getD j d := by
  rw [List.getD_eq_default _ _ (by simpa using h), List.getD_eq_default _ _ h]

theorem getD_fillSlots (f : Nat → StepResult) (order : List Nat)
    (acc : List (Option StepResult)) (i : Nat) :
    (fillSlots f order acc).getD i none =
      if i ∈ order ∧ i < acc.length then some (f i) else acc.getD i none := by
  induction order generalizing acc with
  | nil => simp [fillSlots]
  | cons j rest ih =>
      rw [fillSlots, ih, List.length_set]
      by_cases hmem : i ∈ rest
      · by_cases hlen : i < acc.length
        · rw [if_pos ⟨hmem, hlen⟩, if_pos ⟨List.mem_cons_of_mem _ hmem, hlen⟩]
        · rw [if_neg (by tauto), if_neg (by tauto)]
          exact getD_set_oob _ _ _ _ _ (Nat.le_of_not_lt hlen)
      · by_cases hij : i = j
        · subst hij
          by_cases hlen : i < acc.length
          · rw [if_neg (by tauto), if_pos ⟨List.mem_cons_self _ _, hlen⟩]
            exact getD_set_self _ _ _ _ hlen
          · rw [if_neg (by tauto), if_neg (by tauto)]
            exact getD_set_oob _ _ _ _ _ (Nat.le_of_not_lt hlen)
        · have hnc : i ∉ j :: rest := by
            intro hc
            rcases List.mem_cons.mp hc with h | h
            · exact hij h
            · exact hmem h
          rw [if_neg (by tauto), if_neg (by tauto)]
          exact getD_set_ne _ _ _ _ _ (fun hc => hij hc.symm)

theorem run_seq_eq_map (env : Env) (steps : List Step) :
    ∀ k, run_seq env k steps =
      (List.range steps.length).map
        (fun i => run_step env (env.dms (k + i)) (steps.getD i default)) := by
  induction steps with
  | nil => intro k; rfl
  | cons s rest ih =>
      intro k
      rw [run_seq, ih (k + 1)]
      simp only [List.length_cons, List.range_succ_eq_map, List.map_cons, List.map_map]
      congr 1
      apply List.map_congr_left
      intro i _
      have h1 : k + 1 + i = k + (i + 1) := by omega
      simp [h1]

theorem execute_eq_map (env : Env) (plan : Plan) (order : List Nat)
    (h : order.Perm (List.range plan.steps.length)) :
    execute env plan order =
      (List.range plan.steps.length).map
        (fun i => run_step env (env.dms i) (plan.steps.getD i default)) := by
  unfold execute
  by_cases hN : plan.steps.length ≤ 1
  · rw [if_pos hN, run_seq_eq_map]
    simp
  · rw [if_neg hN]
    have hmem : ∀ i, i ∈ order ↔ i < plan.steps.length := by
      intro i
      rw [h.mem_iff, List.mem_range]
    have hslots :
        fillSlots (fun i => run_step env (env.dms i) (plan.steps.getD i default)) order
            (List.replicate plan.steps.length none) =
          (List.range plan.steps.length).map
            (fun i => some (run_step env (env.dms i) (plan.steps.getD i default))) := by
      apply List.ext_getElem
      · simp [length_fillSlots]
      · intro i h1 h2
        have hi : i < plan.steps.length := by
          simpa [length_fillSlots] using h1
        have hD := getD_fillSlots
          (fun i => run_step env (env.dms i) (plan.steps.getD i default)) order
          (List.replicate plan.steps.length none) i
        rw [if_pos ⟨(hmem i).mpr hi, by simpa using hi⟩] at hD
        calc (fillSlots _ order _)[i]
            = (fillSlots (fun i => run_step env (env.dms i) (plan.steps.getD i default))
                order (List.replicate plan.steps.length none)).getD i none := by
              rw [List.getD_eq_getElem _ _ h1]
          _ = some (run_step env (env.dms i) (plan.steps.getD i default)) := hD
          _ = ((List.range plan.steps.length).map
                (fun i => some (run_step env (env.dms i) (plan.steps.getD i default))))[i] := by
              simp [hi]
    rw [hslots, List.filterMap_map]
    exact congrFun (List.filterMap_eq_map _) _

theorem execute_length (env : Env) (plan : Plan) (order : List Nat)
    (h : order.Perm (List.range plan.steps.length)) :
    (execute env plan order).length = plan.steps.length := by
  rw [execute_eq_map env plan order h]
  simp

theorem execute_getD (env : Env) (plan : Plan) (order : List Nat)
    (h : order.Perm (List.range plan.steps.length)) (i : Nat)
    (hi : i < plan.steps.length) :
    (execute env plan order).getD i default =
      run_step env (env.dms i) (plan.steps.getD i default) := by
  rw [execute_eq_map env plan order h,
    List.getD_eq_getElem _ _ (by simpa using hi)]
  simp

theorem retry_failed_go_length (env : Env) (plan : Plan) :
    ∀ (l : List StepResult) (k : Nat), (retry_failed_go env plan k l).length = l.length := by
  intro l
  induction l with
  | nil => intro k; rfl
  | cons r rest ih => intro k; simp [retry_failed_go, ih]

theorem retry_failed_go_getD (env : Env) (plan : Plan) :
    ∀ (l : List StepResult) (k i : Nat), i < l.length →
      (retry_failed_go env plan k l).getD i default =
        (if (l.getD i default).status = "error" then
           match step_by_id plan (l.getD i default).step_id with
           | some s => run_step env (env.dms (k + i)) s
           | none => l.getD i default
         else l.getD i default) := by
  intro l
  induction l with
  | nil => intro k i hi; simp at hi
  | cons r rest ih =>
      intro k i hi
      match i with
      | 0 => simp [retry_failed_go]
      | j + 1 =>
          have hj : j < rest.length := by simpa using hi
          have h1 : k + (j + 1) = k + 1 + j := by omega
          simpa [retry_failed_go, h1] using ih (k + 1) j hj

theorem retry_failed_go_id (env : Env) (plan : Plan) :
    ∀ (l : List StepResult), (∀ r ∈ l, r.status = "success") →
      ∀ k, retry_failed_go env plan k l = l := by
  intro l
  induction l with
  | nil => intro _ k; rfl
  | cons r rest ih =>
      intro hall k
      have hr : r.status = "success" := hall r (List.mem_cons_self _ _)
      have hne : ¬ r.status = "error" := by rw [hr]; decide
      rw [retry_failed_go, if_neg hne, ih (fun x hx => hall x (List.mem_cons_of_mem _ hx)) (k + 1)]

/-!
## Claims about the Step Runner
-/

/-- C2: for every plan and every completion order of the concurrent workers,
`execute` returns exactly one StepResult per step, and the i-th returned
result is the run of the i-th input step (result slots are addressed by step
index, not completion order). -/
theorem execute_returns_results_in_input_order (env : Env) (plan : Plan)
    (order : List Nat) (h : order.Perm (List.range plan.steps.length)) :
    (execute env plan order).length = plan.steps.length ∧
    ∀ i, i < plan.steps.length →
      (execute env plan order).getD i default =
        run_step env (env.dms i) (plan.steps.getD i default) :=
  ⟨execute_length env plan order h, fun i hi => execute_getD env plan order h i hi⟩

/-- Witness for C2 at a concrete two-step plan with reversed completion
order. -/
theorem execute_returns_results_in_input_order_witness :
    (execute env0 planA [1, 0]).length = 2 ∧
    (execute env0 planA [1, 0]).getD 0 default =
      run_step env0 (env0.dms 0) (planA.steps.getD 0 default) := by
  have h := execute_returns_results_in_input_order env0 planA [1, 0] (by decide)
  exact ⟨h.1, h.2 0 (by decide)⟩

/-- C1: running a step is crash-isolated.  If the step's tool name is not a
registry key, its slot holds an `error` StepResult with error string
`"Unknown tool: <name>"` built without calling any tool; if the tool callable
raises, the exception message becomes the error string of a well-formed
`error` StepResult; in both cases every sibling slot still holds its own
step's result and `execute` still returns a full result list. -/
theorem execute_crash_isolation (env : Env) (plan : Plan) (order : List Nat)
    (h : order.Perm (List.range plan.steps.length)) (i : Nat)
    (hi : i < plan.steps.length) :
    (env.reg (plan.steps.getD i default).tool = none →
       (execute env plan order).getD i default =
         { step_id := (plan.steps.getD i default).id,
           tool := (plan.steps.getD i default).tool,
           args := if (plan.steps.getD i default).args.truthy
                   then (plan.steps.getD i default).args else Val.vdict [],
           status := "error", output := none,
           error := some ("Unknown tool: " ++ (plan.steps.getD i default).tool),
           duration_ms := env.dms i }) ∧
    (∀ f msg, env.reg (plan.steps.getD i default).tool = some f →
       f (if (plan.steps.getD i default).args.truthy
          then (plan.steps.getD i default).args else Val.vdict []) = Except.error msg →
       (execute env plan order).getD i default =
         { step_id := (plan.steps.getD i default).id,
           tool := (plan.steps.getD i default).tool,
           args := if (plan.steps.getD i default).args.truthy
                   then (plan.steps.getD i default).args else Val.vdict [],
           status := "error", output := none, error := some msg,
           duration_ms := env.dms i }) ∧
    (execute env plan order).length = plan.steps.length ∧
    (∀ j, j < plan.steps.length →
       (execute env plan order).getD j default =
         run_step env (env.dms j) (plan.steps.getD j default)) := by
  refine ⟨?_, ?_, execute_length env plan order h,
    fun j hj => execute_getD env plan order h j hj⟩
  · intro hn
    rw [execute_getD env plan order h i hi]
    exact run_step_unknown_tool env (env.dms i) _ hn
  · intro f msg hf hr
    rw [execute_getD env plan order h i hi]
    exact run_step_tool_raises env (env.dms i) _ f msg hf hr

/-- Witness for C1: under `env0`, step 0 of `planA` names an unknown tool and
step 1's tool raises; both slots hold the corresponding error results. -/
theorem execute_crash_isolation_witness :
    (execute env0 planA [1, 0]).getD 0 default =
      { step_id := Val.vstr "s1", tool := "ghost", args := Val.vdict [],
        status := "error", output := none,
        error := some "Unknown tool: ghost", duration_ms := 7 } ∧
    (execute env0 planA [1, 0]).getD 1 default =
      { step_id := Val.vstr "s2", tool := "weather_current", args := Val.vdict [],
        status := "error", output := none, error := some "boom", duration_ms := 7 } := by
  have h0 := execute_crash_isolation env0 planA [1, 0] (by decide) 0 (by decide)
  have h1 := execute_crash_isolation env0 planA [1, 0] (by decide) 1 (by decide)
  exact ⟨h0.1 rfl, h1.2.1 tool_fail "boom" rfl rfl⟩

/-- C4: `retry_failed` maps each result pointwise: non-error results pass
through unchanged, an error result whose step id matches no plan step passes
through unchanged, and an error result whose step id matches a plan step is
replaced by a fresh synchronous run of that step; on an all-success list it
is the identity transform. -/
theorem retry_failed_maps_pointwise (env : Env) (plan : Plan)
    (results : List StepResult) :
    (retry_failed env plan results).length = results.length ∧
    (∀ i, i < results.length → (results.getD i default).status ≠ "error" →
       (retry_failed env plan results).getD i default = results.getD i default) ∧
    (∀ i, i < results.length → (results.getD i default).status = "error" →
       step_by_id plan (results.getD i default).step_id = none →
       (retry_failed env plan results).getD i default = results.getD i default) ∧
    (∀ i s, i < results.length → (results.getD i default).status = "error" →
       step_by_id plan (results.getD i default).step_id = some s →
       (retry_failed env plan results).getD i default = run_step env (env.dms i) s) ∧
    ((∀ r ∈ results, r.status = "success") →
       retry_failed env plan results = results) := by
  refine ⟨retry_failed_go_length env plan results 0, ?_, ?_, ?_,
    fun hall => retry_failed_go_id env plan results hall 0⟩
  · intro i hi hs
    rw [retry_failed, retry_failed_go_getD env plan results 0 i hi, if_neg hs]
  · intro i hi hs hn
    rw [retry_failed, retry_failed_go_getD env plan results 0 i hi, if_pos hs, hn]
  · intro i s hi hs hm
    rw [retry_failed, retry_failed_go_getD env plan results 0 i hi, if_pos hs, hm]
    simp

/-- Witness for C4 on `resultsB`: the success result and the unmatched error
pass through, the matched error is re-run (and fails again under `env0`), and
an all-success list is returned unchanged. -/
theorem retry_failed_maps_pointwise_witness :
    (retry_failed env0 planB resultsB).getD 0 default = r_ok ∧
    (retry_failed env0 planB resultsB).getD 1 default = r_err_nomatch ∧
    (retry_failed env0 planB resultsB).getD 2 default =
      run_step env0 (env0.dms 2) stepWeather ∧
    retry_failed env0 planB [r_ok] = [r_ok] := by
  have h := retry_failed_maps_pointwise env0 planB resultsB
  have hid := (retry_failed_maps_pointwise env0 planB [r_ok]).2.2.2.2 (by decide)
  refine ⟨?_, ?_, ?_, hid⟩
  · exact h.2.1 0 (by decide) (by decide)
  · exact h.2.2.1 1 (by decide) (by decide) (by decide)
  · exact h.2.2.2.1 2 stepWeather (by decide) (by decide) (by decide)

/-!
## Decimal representation: injectivity of `toString : Nat → String`

Needed to show the default ids `step_1, step_2, ...` are pairwise distinct.
-/

theorem toDigitsCore_succ (b fuel n : Nat) (ds : List Char) :
    Nat.toDigitsCore b (fuel + 1) n ds =
      (if n / b = 0 then Nat.digitChar (n % b) :: ds
       else Nat.toDigitsCore b fuel (n / b) (Nat.digitChar (n % b) :: ds)) := by
  conv_lhs => rw [Nat.toDigitsCore]

theorem digitChar_inj_lt (a b : Nat) (ha : a < 10) (hb : b < 10)
    (h : Nat.digitChar a = Nat.digitChar b) : a = b := by
  have key : ∀ x : Fin 10, ∀ y : Fin 10,
      Nat.digitChar x.val = Nat.digitChar y.val → x = y := by decide
  have := key ⟨a, ha⟩ ⟨b, hb⟩ h
  exact congrArg Fin.val this

theorem digitsList_ne_nil (n : Nat) : digitsList n ≠ [] := by
  unfold digitsList
  by_cases h : n / 10 = 0
  · simp [h]
  · simp [h]

theorem toDigitsCore_eq_digitsList (fuel : Nat) :
    ∀ n ds, n < fuel → Nat.toDigitsCore 10 fuel n ds = digitsList n ++ ds := by
  induction fuel with
  | zero => intro n ds h; omega
  | succ f ih =>
      intro n ds h
      rw [toDigitsCore_succ]
      by_cases h10 : n / 10 = 0
      · rw [if_pos h10]
        unfold digitsList
        rw [dif_pos h10]
        rfl
      · rw [if_neg h10]
        have hn : n ≠ 0 := fun hz => h10 (by simp [hz])
        have hlt : n / 10 < f := by
          have h1 : n / 10 < n := Nat.div_lt_self (Nat.pos_of_ne_zero hn) (by norm_num)
          omega
        rw [ih (n / 10) (Nat.digitChar (n % 10) :: ds) hlt]
        conv_rhs => unfold digitsList
        rw [dif_neg h10]
        simp

theorem digitsList_injective : ∀ m n : Nat, digitsList m = digitsList n → m = n := by
  intro m
  induction m using Nat.strong_induction_on with
  | _ m ih =>
      intro n heq
      by_cases hm : m / 10 = 0 <;> by_cases hn : n / 10 = 0
      · unfold digitsList at heq
        rw [dif_pos hm, dif_pos hn] at heq
        have hd : m % 10 = n % 10 :=
          digitChar_inj_lt _ _ (Nat.mod_lt _ (by norm_num)) (Nat.mod_lt _ (by norm_num))
            (by simpa using heq)
        have h1 := Nat.div_add_mod m 10
        have h2 := Nat.div_add_mod n 10
        omega
      · unfold digitsList at heq
        rw [dif_pos hm, dif_neg hn] at heq
        have hlen : ([Nat.digitChar (m % 10)] : List Char).length =
            (digitsList (n / 10) ++ [Nat.digitChar (n % 10)]).length := by rw [heq]
        have hne := digitsList_ne_nil (n / 10)
        simp at hlen
        cases h : digitsList (n / 10) with
        | nil => exact absurd h hne
        | cons c cs => rw [h] at hlen; simp at hlen
      · unfold digitsList at heq
        rw [dif_neg hm, dif_pos hn] at heq
        have hlen : (digitsList (m / 10) ++ [Nat.digitChar (m % 10)]).length =
            ([Nat.digitChar (n % 10)] : List Char).length := by rw [heq]
        have hne := digitsList_ne_nil (m / 10)
        simp at hlen
        cases h : digitsList (m / 10) with
        | nil => exact absurd h hne
        | cons c cs => rw [h] at hlen; simp at hlen
      · unfold digitsList at heq
        rw [dif_neg hm, dif_neg hn] at heq
        have hrev := congrArg List.reverse heq
        simp only [List.reverse_append, List.reverse_cons, List.reverse_nil,
          List.nil_append, List.singleton_append] at hrev
        have hhead : Nat.digitChar (m % 10) = Nat.digitChar (n % 10) :=
          List.head_eq_of_cons_eq hrev
        have htail : (digitsList (m / 10)).reverse = (digitsList (n / 10)).reverse :=
          List.tail_eq_of_cons_eq hrev
        have hd : m % 10 = n % 10 :=
          digitChar_inj_lt _ _ (Nat.mod_lt _ (by norm_num)) (Nat.mod_lt _ (by norm_num)) hhead
        have hq : m / 10 = n / 10 := by
          apply ih (m / 10)
          · have hmn : m ≠ 0 := fun hz => hm (by simp [hz])
            exact Nat.div_lt_self (Nat.pos_of_ne_zero hmn) (by norm_num)
          · exact List.reverse_injective htail
        have h1 := Nat.div_add_mod m 10
        have h2 := Nat.div_add_mod n 10
        omega

theorem natToString_injective (m n : Nat) (h : toString m = toString n) : m = n := by
  have hm : toString m = (digitsList m).asString := by
    show (Nat.toDigitsCore 10 (m + 1) m []).asString = _
    rw [toDigitsCore_eq_digitsList (m + 1) m [] (Nat.lt_succ_self m)]
    simp
  have hn : toString n = (digitsList n).asString := by
    show (Nat.toDigitsCore 10 (n + 1) n []).asString = _
    rw [toDigitsCore_eq_digitsList (n + 1) n [] (Nat.lt_succ_self n)]
    simp
  rw [hm, hn] at h
  have hdata : (digitsList m).asString.data = (digitsList n).asString.data := by rw [h]
  have hdl : digitsList m = digitsList n := by simpa using hdata
  exact digitsList_injective m n hdl

theorem string_appendLeft_inj (s a b : String) (h : s ++ a = s ++ b) : a = b := by
  have hd : (s ++ a).data = (s ++ b).data := by rw [h]
  rw [String.data_append, String.data_append] at hd
  have hc := List.append_cancel_left hd
  cases a
  cases b
  exact congrArg String.mk (by simpa using hc)

/-!
## Plan Builder lemmas and claims
-/

theorem normalize_step_id (reg : Registry) (j : Nat) (v : Val) (s : Step)
    (h : normalize_step reg j v = Except.ok s) :
    ∃ skvs, v = Val.vdict skvs ∧
      s.id = pyOr (dget skvs "id") (Val.vstr ("step_" ++ toString j)) := by
  cases v with
  | vdict skvs =>
      refine ⟨skvs, rfl, ?_⟩
      simp only [normalize_step] at h
      split at h
      · split at h
        · cases h
          rfl
        · exact absurd h (by simp)
      · exact absurd h (by simp)
  | vnull => exact absurd h (by simp [normalize_step])
  | vbool b => exact absurd h (by simp [normalize_step])
  | vint n => exact absurd h (by simp [normalize_step])
  | vstr t => exact absurd h (by simp [normalize_step])
  | vlist xs => exact absurd h (by simp [normalize_step])

theorem normalize_steps_spec (reg : Registry) :
    ∀ (vs : List Val) (idx : Nat) (ss : List Step),
      normalize_steps reg idx vs = Except.ok ss →
      ss.length = vs.length ∧
      ∀ i, i < vs.length →
        normalize_step reg (idx + i) (vs.getD i Val.vnull) = Except.ok (ss.getD i default) := by
  intro vs
  induction vs with
  | nil =>
      intro idx ss h
      cases h
      exact ⟨rfl, fun i hi => by simp at hi⟩
  | cons v rest ih =>
      intro idx ss h
      cases hs : normalize_step reg idx v with
      | error e =>
          rw [normalize_steps, hs] at h
          exact absurd h (by simp)
      | ok s =>
          cases hrest : normalize_steps reg (idx + 1) rest with
          | error e =>
              rw [normalize_steps, hs, hrest] at h
              exact absurd h (by simp)
          | ok ss2 =>
              rw [normalize_steps, hs, hrest] at h
              cases h
              obtain ⟨hlen, hpt⟩ := ih (idx + 1) ss2 hrest
              refine ⟨by simp [hlen], ?_⟩
              intro i hi
              match i with
              | 0 => simpa using hs
              | j + 1 =>
                  have hj : j < rest.length := by simpa using hi
                  have harith : idx + (j + 1) = idx + 1 + j := by omega
                  simpa [harith] using hpt j hj

theorem normalize_plan_ok (reg : Registry) (raw : Val) (task : String) (p : Plan)
    (h : normalize_plan reg raw task = Except.ok p) :
    ∃ kvs vs, raw = Val.vdict kvs ∧ dget kvs "steps" = some (Val.vlist vs) ∧
      vs ≠ [] ∧ normalize_steps reg 1 vs = Except.ok p.steps ∧
      p.goal = pyOr (dget kvs "goal") (Val.vstr task) := by
  cases raw with
  | vdict kvs =>
      simp only [normalize_plan] at h
      split at h
      next vs hvs =>
          refine ⟨kvs, vs, rfl, hvs, ?_⟩
          split at h
          next he => exact absurd h (by simp)
          next he =>
              split at h
              next e hns => exact absurd h (by simp)
              next ns hns =>
                  cases h
                  exact ⟨by simpa using he, hns, rfl⟩
      next x hx => exact absurd h (by simp)
  | vnull => exact absurd h (by simp [normalize_plan])
  | vbool b => exact absurd h (by simp [normalize_plan])
  | vint n => exact absurd h (by simp [normalize_plan])
  | vstr t => exact absurd h (by simp [normalize_plan])
  | vlist xs => exact absurd h (by simp [normalize_plan])

/-- C9 as stated is false: `_normalize_plan` never checks uniqueness of
oracle-supplied step ids, so two steps can share id `"x"` in the returned
normalized Plan. -/
theorem plan_ids_unique_counterexample :
    normalize_plan reg0 rawDup "t" = Except.ok planDup ∧
      ¬ (planDup.steps.map Step.id).Nodup :=
  ⟨rfl, by decide⟩

/-- C9 (amended): a step that omits (or supplies a falsy) id gets the default
`"step_<1-based index>"`; the returned ids are unique whenever every
normalized id is its positional default (in particular when the oracle omits
every id), but oracle-supplied ids are passed through without any uniqueness
check. -/
theorem normalize_plan_default_ids (reg : Registry) (raw : Val) (task : String)
    (kvs : List (String × Val)) (vs : List Val) (p : Plan)
    (hraw : raw = Val.vdict kvs)
    (hsteps : dget kvs "steps" = some (Val.vlist vs))
    (hok : normalize_plan reg raw task = Except.ok p) :
    p.steps.length = vs.length ∧
    (∀ i, i < vs.length → ∀ skvs, vs.getD i Val.vnull = Val.vdict skvs →
       (p.steps.getD i default).id =
         pyOr (dget skvs "id") (Val.vstr ("step_" ++ toString (i + 1)))) ∧
    ((∀ i, i < vs.length →
        (p.steps.getD i default).id = Val.vstr ("step_" ++ toString (i + 1))) →
      (p.steps.map Step.id).Nodup) := by
  obtain ⟨kvs2, vs2, hraw2, hsteps2, _, hns, _⟩ := normalize_plan_ok reg raw task p hok
  rw [hraw] at hraw2
  cases hraw2
  rw [hsteps] at hsteps2
  cases hsteps2
  obtain ⟨hlen, hpt⟩ := normalize_steps_spec reg vs 1 p.steps hns
  refine ⟨hlen, ?_, ?_⟩
  · intro i hi skvs hskvs
    obtain ⟨skvs2, hsk2, hid⟩ := normalize_step_id reg (1 + i) (vs.getD i Val.vnull)
      (p.steps.getD i default) (hpt i hi)
    rw [hskvs] at hsk2
    cases hsk2
    rw [hid, Nat.add_comm 1 i]
  · intro hdef
    have hmap : p.steps.map Step.id =
        (List.range vs.length).map (fun i => Val.vstr ("step_" ++ toString (i + 1))) := by
      apply List.ext_getElem
      · simp [hlen]
      · intro i h1 h2
        have hi : i < vs.length := by simpa using h2
        have hip : i < p.steps.length := by simpa [hlen] using hi
        have hD : (p.steps.map Step.id)[i] = (p.steps.getD i default).id := by
          rw [List.getD_eq_getElem _ _ hip]
          simp
        rw [hD, hdef i hi]
        simp
    rw [hmap]
    refine (List.nodup_range _).map ?_
    intro a b hab
    have h1 : ("step_" ++ toString (a + 1)) = ("step_" ++ toString (b + 1)) := by
      simpa using hab
    have h2 := string_appendLeft_inj _ _ _ h1
    have h3 := natToString_injective _ _ h2
    omega

/-- Witness for the amended C9: when the oracle omits every id, the
normalized ids are `step_1, step_2` and are unique. -/
theorem normalize_plan_default_ids_witness :
    normalize_plan reg0 rawNoIds "t" = Except.ok planDef ∧
      (planDef.steps.map Step.id).Nodup := by
  refine ⟨rfl, ?_⟩
  have h := normalize_plan_default_ids reg0 rawNoIds "t"
    [("steps", Val.vlist [Val.vdict [("tool", Val.vstr "weather_current")],
      Val.vdict [("tool", Val.vstr "weather_current")]])]
    [Val.vdict [("tool", Val.vstr "weather_current")],
     Val.vdict [("tool", Val.vstr "weather_current")]]
    planDef rfl rfl rfl
  exact h.2.2 (by decide)

/-!
## Verifier lemmas and claims
-/

theorem tools_only_llm_not_multi (plan : Plan) (h : tools_only_llm plan = true) :
    tools_hit_search_or_weather plan = false := by
  rw [Bool.eq_false_iff]
  intro hc
  simp only [tools_hit_search_or_weather, List.any_eq_true, Bool.or_eq_true,
    beq_iff_eq] at hc
  obtain ⟨t, ht, hor⟩ := hc
  simp only [tools_only_llm, Bool.and_eq_true, List.all_eq_true, beq_iff_eq] at h
  have hllm := h.2 t ht
  rcases hor with h1 | h1 <;> rw [hllm] at h1 <;> exact absurd h1 (by decide)

theorem tools_multi_not_only_llm (plan : Plan)
    (h : tools_hit_search_or_weather plan = true) : tools_only_llm plan = false := by
  cases ho : tools_only_llm plan
  · rfl
  · rw [tools_only_llm_not_multi plan ho] at h
    exact absurd h (by decide)

theorem verify_ok_iff (env : Env)
    (vOracle : String → Plan → List Val → List (String × Val))
    (task : String) (plan : Plan) (results : List StepResult)
    (V : List (String × Val)) :
    verify env vOracle task plan results = Except.ok V ↔
    ∃ compacted, compact_step_results (retry_failed env plan results) = Except.ok compacted ∧
      V = verify_enrich plan (retry_failed env plan results) (vOracle task plan compacted) := by
  unfold verify
  cases hc : compact_step_results (retry_failed env plan results) with
  | error e => simp
  | ok c => simp [eq_comm]

theorem dget_verify_enrich_ne (plan : Plan) (repaired : List StepResult)
    (v0 : List (String × Val)) (k : String)
    (h1 : k ≠ "sources") (h2 : k ≠ "limitations") (h3 : k ≠ "completeness") :
    dget (verify_enrich plan repaired v0) k =
      dget (v_after_multi plan repaired (v_after_llm plan repaired v0)) k := by
  simp only [verify_enrich, v_with_sources]
  by_cases hm : ((repaired.filter (fun r => r.status != "success")).isEmpty : Bool)
  · rw [if_pos hm, dget_dset_ne _ _ _ _ h1]
  · rw [if_neg hm, dget_dset_ne _ _ _ _ h3, dget_dset_ne _ _ _ _ h2,
      dget_dset_ne _ _ _ _ h1]

theorem dget_verify_enrich_sources (plan : Plan) (repaired : List StepResult)
    (v0 : List (String × Val)) :
    dget (verify_enrich plan repaired v0) "sources" =
      some (Val.vlist (sources_value plan repaired)) := by
  simp only [verify_enrich, v_with_sources]
  by_cases hm : ((repaired.filter (fun r => r.status != "success")).isEmpty : Bool)
  · rw [if_pos hm, dget_dset_self]
  · rw [if_neg hm, dget_dset_ne _ _ _ _ (by decide), dget_dset_ne _ _ _ _ (by decide),
      dget_dset_self]

/-- C3: whenever some result still has a non-success status after verify's
single repair pass, the returned verification dict has completeness
`"partial"` and its limitations list contains the fixed failure string
(a fresh list is created when the oracle supplied none, or a non-list). -/
theorem verify_missing_forces_partial (env : Env)
    (vOracle : String → Plan → List Val → List (String × Val))
    (task : String) (plan : Plan) (results : List StepResult)
    (V : List (String × Val))
    (hm : (retry_failed env plan results).filter (fun r => r.status != "success") ≠ [])
    (hok : verify env vOracle task plan results = Except.ok V) :
    dget V "completeness" = some (Val.vstr "partial") ∧
    ∃ l, dget V "limitations" = some (Val.vlist l) ∧ Val.vstr fail_msg ∈ l := by
  obtain ⟨compacted, hc, rfl⟩ := (verify_ok_iff env vOracle task plan results V).mp hok
  have hm2 : ¬ (((retry_failed env plan results).filter
      (fun r => r.status != "success")).isEmpty : Bool) := by
    simpa [List.isEmpty_iff] using hm
  simp only [verify_enrich, v_with_sources]
  rw [if_neg hm2]
  refine ⟨dget_dset_self _ _ _,
    ⟨_, by rw [dget_dset_ne _ _ _ _ (by decide), dget_dset_self], by simp⟩⟩

/-- C6: when the plan's distinct tools are exactly llm_generate and the
first successful llm_generate result has non-empty stripped text, the
returned dict's final_answer is that text verbatim, data is the
introduction_speech/word_count dict, and sources is empty — whatever the
oracle produced. -/
theorem verify_llm_override (env : Env)
    (vOracle : String → Plan → List Val → List (String × Val))
    (task : String) (plan : Plan) (results : List StepResult)
    (V : List (String × Val))
    (hllm : tools_only_llm plan = true)
    (hst : speech_text (retry_failed env plan results) ≠ "")
    (hok : verify env vOracle task plan results = Except.ok V) :
    dget V "final_answer" =
      some (Val.vstr (speech_text (retry_failed env plan results))) ∧
    dget V "data" = some (Val.vdict
      [("kind", Val.vstr "introduction_speech"),
       ("word_count", Val.vint (word_count (speech_text (retry_failed env plan results))))]) ∧
    dget V "sources" = some (Val.vlist []) := by
  obtain ⟨compacted, hc, rfl⟩ := (verify_ok_iff env vOracle task plan results V).mp hok
  have hfires : llm_override_fires plan (retry_failed env plan results) = true := by
    simp [llm_override_fires, hllm, bne_iff_ne, hst]
  have hmulti : multi_override_fires plan (retry_failed env plan results) = false := by
    simp [multi_override_fires, tools_only_llm_not_multi plan hllm]
  refine ⟨?_, ?_, ?_⟩
  · rw [dget_verify_enrich_ne _ _ _ _ (by decide) (by decide) (by decide)]
    simp only [v_after_multi, hmulti, Bool.false_eq_true, if_false, v_after_llm,
      hfires, if_true]
    rw [dget_dset_ne _ _ _ _ (by decide), dget_dset_self]
  · rw [dget_verify_enrich_ne _ _ _ _ (by decide) (by decide) (by decide)]
    simp only [v_after_multi, hmulti, Bool.false_eq_true, if_false, v_after_llm,
      hfires, if_true]
    rw [dget_dset_self]
  · rw [dget_verify_enrich_sources]
    simp [sources_value, hfires]

/-- C7: when the plan's tools meet `{github_search, weather_current}` and the
deterministic composition yields at least one sentence, the returned dict's
final_answer is exactly that composition (repository sentence then weather
sentence, space-joined and stripped), while data stays the oracle's. -/
theorem verify_multi_domain_override (env : Env)
    (vOracle : String → Plan → List Val → List (String × Val))
    (task : String) (plan : Plan) (results : List StepResult)
    (compacted : List Val) (V : List (String × Val))
    (hc : compact_step_results (retry_failed env plan results) = Except.ok compacted)
    (hmulti : tools_hit_search_or_weather plan = true)
    (hparts : compose_parts (repo_items (retry_failed env plan results))
        (weather_info (retry_failed env plan results)) ≠ [])
    (hok : verify env vOracle task plan results = Except.ok V) :
    dget V "final_answer" = some (Val.vstr (pyStrip (String.intercalate " "
      (compose_parts (repo_items (retry_failed env plan results))
        (weather_info (retry_failed env plan results)))))) ∧
    dget V "data" = dget (vOracle task plan compacted) "data" := by
  obtain ⟨c2, hc2, rfl⟩ := (verify_ok_iff env vOracle task plan results V).mp hok
  rw [hc] at hc2
  cases hc2
  have hfire : multi_override_fires plan (retry_failed env plan results) = true := by
    simp [multi_override_fires, hmulti, List.isEmpty_iff, hparts]
  have hnl : llm_override_fires plan (retry_failed env plan results) = false := by
    simp [llm_override_fires, tools_multi_not_only_llm plan hmulti]
  refine ⟨?_, ?_⟩
  · rw [dget_verify_enrich_ne _ _ _ _ (by decide) (by decide) (by decide)]
    simp only [v_after_multi, hfire, if_true]
    rw [dget_dset_self]
  · rw [dget_verify_enrich_ne _ _ _ _ (by decide) (by decide) (by decide)]
    simp only [v_after_multi, hfire, if_true]
    rw [dget_dset_ne _ _ _ _ (by decide)]
    simp only [v_after_llm, hnl, Bool.false_eq_true, if_false]

/-- C8 as stated is false: when the single-tool narration override fires, the
`sources` list is cleared rather than set to the deduplicated collected
source urls.  Concretely, a one-step llm_generate plan whose successful
output carries a `source_url` yields empty `sources`. -/
theorem verify_sources_claim_counterexample :
    verify env0 vOracle0 "t" planL [rLLM] =
      Except.ok (verify_enrich planL (retry_failed env0 planL [rLLM]) []) ∧
    allowed_sources (retry_failed env0 planL [rLLM]) = [Val.vstr "http://x"] ∧
    dget (verify_enrich planL (retry_failed env0 planL [rLLM]) []) "sources" ≠
      some (Val.vlist (allowed_sources (retry_failed env0 planL [rLLM]))) :=
  ⟨rfl, by decide, by decide⟩

/-- C8 (amended): the returned `sources` value is the deduplicated
(first-seen order) concatenation of the successful outputs' source_url
values followed by the repository item urls — except when the single-tool
narration override fires, in which case it is empty; in every case the
returned list has no duplicates and is a subsequence of the collected
accumulator. -/
theorem verify_sources_deduplicated (env : Env)
    (vOracle : String → Plan → List Val → List (String × Val))
    (task : String) (plan : Plan) (results : List StepResult)
    (V : List (String × Val))
    (hok : verify env vOracle task plan results = Except.ok V) :
    (llm_override_fires plan (retry_failed env plan results) = false →
       dget V "sources" =
         some (Val.vlist (allowed_sources (retry_failed env plan results)))) ∧
    (llm_override_fires plan (retry_failed env plan results) = true →
       dget V "sources" = some (Val.vlist [])) ∧
    (∀ l, dget V "sources" = some (Val.vlist l) →
       l.Nodup ∧ l.Sublist (collected_sources (retry_failed env plan results))) := by
  obtain ⟨compacted, hc, rfl⟩ := (verify_ok_iff env vOracle task plan results V).mp hok
  have hs := dget_verify_enrich_sources plan (retry_failed env plan results)
    (vOracle task plan compacted)
  refine ⟨fun hf => ?_, fun hf => ?_, fun l hl => ?_⟩
  · rw [hs]
    simp [sources_value, hf]
  · rw [hs]
    simp [sources_value, hf]
  · rw [hs] at hl
    have hleq : sources_value plan (retry_failed env plan results) = l := by
      have := Option.some.inj hl
      exact Val.vlist.inj this
    rw [← hleq]
    unfold sources_value
    by_cases hf : (llm_override_fires plan (retry_failed env plan results) : Bool)
    · rw [if_pos hf]
      exact ⟨List.nodup_nil, List.nil_sublist _⟩
    · rw [if_neg hf]
      exact ⟨dedupFirst_nodup _, dedupFirst_sublist _⟩

/-- Witness for C3: a failing weather step (still failing on retry) forces
`completeness = "partial"` and the fixed limitation string. -/
theorem verify_missing_forces_partial_witness :
    verify env0 vOracle0 "t" planB [r_err_match] =
      Except.ok (verify_enrich planB (retry_failed env0 planB [r_err_match]) []) ∧
    dget (verify_enrich planB (retry_failed env0 planB [r_err_match]) [])
      "completeness" = some (Val.vstr "partial") ∧
    dget (verify_enrich planB (retry_failed env0 planB [r_err_match]) [])
      "limitations" = some (Val.vlist [Val.vstr fail_msg]) := by
  have hok : verify env0 vOracle0 "t" planB [r_err_match] =
      Except.ok (verify_enrich planB (retry_failed env0 planB [r_err_match]) []) := rfl
  have h := verify_missing_forces_partial env0 vOracle0 "t" planB [r_err_match] _
    (by decide) hok
  exact ⟨hok, h.1, by decide⟩

/-- Witness for C6: an llm_generate-only plan whose tool produced `"hi"`
yields final_answer `"hi"`, the introduction_speech/word_count 1 data dict,
and empty sources. -/
theorem verify_llm_override_witness :
    verify env0 vOracle0 "t" planL [rLLM] =
      Except.ok (verify_enrich planL (retry_failed env0 planL [rLLM]) []) ∧
    dget (verify_enrich planL (retry_failed env0 planL [rLLM]) []) "final_answer" =
      some (Val.vstr "hi") ∧
    dget (verify_enrich planL (retry_failed env0 planL [rLLM]) []) "data" =
      some (Val.vdict [("kind", Val.vstr "introduction_speech"),
                       ("word_count", Val.vint 1)]) ∧
    dget (verify_enrich planL (retry_failed env0 planL [rLLM]) []) "sources" =
      some (Val.vlist []) := by
  have hok : verify env0 vOracle0 "t" planL [rLLM] =
      Except.ok (verify_enrich planL (retry_failed env0 planL [rLLM]) []) := rfl
  obtain ⟨h1, h2, h3⟩ := verify_llm_override env0 vOracle0 "t" planL [rLLM] _
    (by decide) (by decide) hok
  have hsp : speech_text (retry_failed env0 planL [rLLM]) = "hi" := by decide
  rw [hsp] at h1 h2
  exact ⟨hok, h1, by simpa using h2, h3⟩

/-- Witness for C7: the Pune example of the spec, with three repository items
(stars 100, 50, 10) and a weather result; the composed final answer is the
exact two-sentence string and the oracle's data is untouched. -/
theorem verify_multi_domain_override_witness :
    verify env0 vOracle0 "t" planGW [rGit, rWeather] =
      Except.ok (verify_enrich planGW (retry_failed env0 planGW [rGit, rWeather]) []) ∧
    dget (verify_enrich planGW (retry_failed env0 planGW [rGit, rWeather]) [])
      "final_answer" = some (Val.vstr
        "Top repositories: r1 (u1, 100★); r2 (u2, 50★); r3 (u3, 10★). Current weather in Pune, India: Clear sky, 30°C, wind 12 kph.") ∧
    dget (verify_enrich planGW (retry_failed env0 planGW [rGit, rWeather]) [])
      "data" = none := by
  have hok : verify env0 vOracle0 "t" planGW [rGit, rWeather] =
      Except.ok (verify_enrich planGW (retry_failed env0 planGW [rGit, rWeather]) []) := rfl
  obtain ⟨h1, h2⟩ := verify_multi_domain_override env0 vOracle0 "t" planGW
    [rGit, rWeather] _ _ rfl (by decide) (by decide) hok
  have hcomp : pyStrip (String.intercalate " "
      (compose_parts (repo_items (retry_failed env0 planGW [rGit, rWeather]))
        (weather_info (retry_failed env0 planGW [rGit, rWeather])))) =
      "Top repositories: r1 (u1, 100★); r2 (u2, 50★); r3 (u3, 10★). Current weather in Pune, India: Clear sky, 30°C, wind 12 kph." := by
    decide
  rw [hcomp] at h1
  exact ⟨hok, h1, by simpa using h2⟩

/-- Witness for the amended C8: with a github_search source_url and three
item urls, the attached sources list is the deduplicated first-seen-order
accumulator and has no duplicates. -/
theorem verify_sources_deduplicated_witness :
    verify env0 vOracle0 "t" planGW [rGit, rWeather] =
      Except.ok (verify_enrich planGW (retry_failed env0 planGW [rGit, rWeather]) []) ∧
    dget (verify_enrich planGW (retry_failed env0 planGW [rGit, rWeather]) [])
      "sources" = some (Val.vlist
        [Val.vstr "http://gh", Val.vstr "u1", Val.vstr "u2", Val.vstr "u3"]) ∧
    (allowed_sources (retry_failed env0 planGW [rGit, rWeather])).Nodup := by
  have hok : verify env0 vOracle0 "t" planGW [rGit, rWeather] =
      Except.ok (verify_enrich planGW (retry_failed env0 planGW [rGit, rWeather]) []) := rfl
  obtain ⟨h1, h2, h3⟩ := verify_sources_deduplicated env0 vOracle0 "t" planGW
    [rGit, rWeather] _ hok
  have hf : llm_override_fires planGW (retry_failed env0 planGW [rGit, rWeather]) = false := by
    decide
  have hs := h1 hf
  have ha : allowed_sources (retry_failed env0 planGW [rGit, rWeather]) =
      [Val.vstr "http://gh", Val.vstr "u1", Val.vstr "u2", Val.vstr "u3"] := by decide
  exact ⟨hok, by rw [hs, ha], (h3 _ hs).1⟩

/-!
## Orchestrator claims
-/

/-- C5: the orchestrator makes at most one replan attempt (at most two full
passes) even when the replanned result is again partial; the replan cycle's
verify is posed the original task text, not the corrective one; and the
replanned plan/steps/verification replace the returned ones exactly when the
replan's completeness is `"complete"`, the original outcome being returned
with the ReplanEnvelope attached otherwise. -/
theorem orchestrator_single_replan (e1 e2 e3 e4 : Env) (order1 order2 : List Nat)
    (planOracle : String → Val)
    (vOracle : String → Plan → List Val → List (String × Val))
    (task : String) (plan rplan : Plan) (final rfinal : List (String × Val))
    (rtask : String)
    (hplan : create_plan e1.reg planOracle task = Except.ok plan)
    (hfinal : verify e2 vOracle task plan (execute e1 plan order1) = Except.ok final)
    (hpart : dget final "completeness" = some (Val.vstr "partial"))
    (hrt : build_replan_task task (execute e1 plan order1) final =
      Except.ok (some rtask))
    (hrplan : create_plan e3.reg planOracle rtask = Except.ok rplan)
    (hrfinal : verify e4 vOracle task rplan (execute e3 rplan order2) =
      Except.ok rfinal) :
    run_task_passes e1 e2 e3 e4 order1 order2 planOracle vOracle task ≤ 2 ∧
    run_task e1 e2 e3 e4 order1 order2 planOracle vOracle task =
      Except.ok (if dget rfinal "completeness" = some (Val.vstr "complete") then
        ⟨task, rplan, execute e3 rplan order2, rfinal,
          some ⟨true, "Previous attempt incomplete", rtask, rplan,
                execute e3 rplan order2, rfinal⟩,
          ((execute e1 plan order1).map StepResult.duration_ms).sum,
          (execute e3 rplan order2).length⟩
      else
        ⟨task, plan, execute e1 plan order1, final,
          some ⟨true, "Previous attempt incomplete", rtask, rplan,
                execute e3 rplan order2, rfinal⟩,
          ((execute e1 plan order1).map StepResult.duration_ms).sum,
          (execute e1 plan order1).length⟩) := by
  constructor
  · simp only [run_task_passes, hplan, hfinal]
    rw [if_pos hpart]
    simp only [hrt]
    exact Nat.le_refl 2
  · simp only [run_task, hplan, hfinal]
    rw [if_pos hpart]
    simp only [hrt, hrplan, hrfinal]
    by_cases hcomp : dget rfinal "completeness" = some (Val.vstr "complete")
    · rw [if_pos hcomp, if_pos hcomp]
    · rw [if_neg hcomp, if_neg hcomp]

/-- Witness for C5: a weather-only plan that fails at both passes; the
replanned result is again partial, so the original outcome is returned with
the envelope attached, after exactly two passes. -/
theorem orchestrator_single_replan_witness :
    run_task_passes env0 env0 env0 env0 [0] [0] planOracle0 vOracle0 "t0" ≤ 2 ∧
    run_task env0 env0 env0 env0 [0] [0] planOracle0 vOracle0 "t0" =
      Except.ok ⟨"t0", planOne, [rs1], final1,
        some ⟨true, "Previous attempt incomplete", rtask1, planOne, [rs1], final1⟩,
        7, 1⟩ := by
  have h := orchestrator_single_replan env0 env0 env0 env0 [0] [0] planOracle0
    vOracle0 "t0" planOne planOne final1 final1 rtask1 rfl rfl (by decide) rfl rfl rfl
  refine ⟨h.1, ?_⟩
  rw [h.2, if_neg (by decide :
    ¬ dget final1 "completeness" = some (Val.vstr "complete"))]
  exact congrArg Except.ok (by decide)

/-- C10: the steps returned to the caller, and the per-step error summary
the corrective replan task is built from, are taken from the original
execute output — not from the verifier's repaired sequence: a step that
failed in execute but was repaired during verify still appears with status
`error` in the returned steps, and still contributes its
`"<tool>: <error>"` entry. -/
theorem orchestrator_returns_unrepaired_steps (e1 e2 e3 e4 : Env)
    (order1 order2 : List Nat) (planOracle : String → Val)
    (vOracle : String → Plan → List Val → List (String × Val))
    (task : String) (plan rplan : Plan) (final rfinal : List (String × Val))
    (rtask : String)
    (hplan : create_plan e1.reg planOracle task = Except.ok plan)
    (hfinal : verify e2 vOracle task plan (execute e1 plan order1) = Except.ok final)
    (hpart : dget final "completeness" = some (Val.vstr "partial"))
    (hrt : build_replan_task task (execute e1 plan order1) final =
      Except.ok (some rtask))
    (hrplan : create_plan e3.reg planOracle rtask = Except.ok rplan)
    (hrfinal : verify e4 vOracle task rplan (execute e3 rplan order2) =
      Except.ok rfinal)
    (hnc : ¬ dget rfinal "completeness" = some (Val.vstr "complete")) :
    run_task e1 e2 e3 e4 order1 order2 planOracle vOracle task =
      Except.ok ⟨task, plan, execute e1 plan order1, final,
        some ⟨true, "Previous attempt incomplete", rtask, rplan,
              execute e3 rplan order2, rfinal⟩,
        ((execute e1 plan order1).map StepResult.duration_ms).sum,
        (execute e1 plan order1).length⟩ ∧
    (∀ r ∈ execute e1 plan order1, r.status = "error" →
       ((if r.tool ≠ "" then r.tool else "unknown_tool") ++ ": " ++
        (match r.error with
         | some e => if e ≠ "" then e else "unknown error"
         | none => "unknown error")) ∈ extract_step_errors (execute e1 plan order1)) := by
  constructor
  · simp only [run_task, hplan, hfinal]
    rw [if_pos hpart]
    simp only [hrt, hrplan, hrfinal]
    rw [if_neg hnc]
  · intro r hr hst
    refine List.mem_filterMap.mpr ⟨r, hr, ?_⟩
    rw [if_pos hst]

/-- Witness for C10: the first execute pass fails (`env0`) but the repair
pass inside verify succeeds (`envOK`); the returned steps still hold the
error result and the corrective task still carries the
`"weather_current: boom"` entry. -/
theorem orchestrator_returns_unrepaired_steps_witness :
    retry_failed envOK planOne [rs1] = [rsOK] ∧
    run_task env0 envOK env0 envOK [0] [0] planOracle0 vOracleP "t0" =
      Except.ok ⟨"t0", planOne, [rs1], finalP,
        some ⟨true, "Previous attempt incomplete", rtask2, planOne, [rs1], finalP⟩,
        7, 1⟩ ∧
    "weather_current: boom" ∈ extract_step_errors [rs1] := by
  have h := orchestrator_returns_unrepaired_steps env0 envOK env0 envOK [0] [0]
    planOracle0 vOracleP "t0" planOne planOne finalP finalP rtask2
    rfl rfl (by decide) rfl rfl rfl (by decide)
  refine ⟨by decide, ?_, ?_⟩
  · rw [h.1]
    exact congrArg Except.ok (by decide)
  · have hm := h.2 rs1 (by decide) rfl
    simpa using hm
